import Mathlib

/-!
# Canvas State Engine — formal model

A shallow embedding of the canvas state engine of the widget playground
(`CanvasState` in `src/core/canvas`), faithful to the TypeScript source:

* JS numbers that hold pixel coordinates, sizes and grid configuration are
  modelled as `ℚ` (the inputs of interest are exact in both models);
  `Math.round` is `jsRound` (floor of `q + 1/2`, matching JS semantics
  including negative halves).
* The JS `Map<string, WidgetPlacement>` is modelled as an insertion-ordered
  association list with `Map.set` / `Map.get` / `Map.delete` semantics
  (`mapSet`, `mapGet`, `mapDelete`; in-place mutation of a retrieved entry
  is `mapUpdate`).
* Widget ids `widget-${Date.now()}-${random}` are opaque and fresh; the
  freshness guarantee of the timestamp+nonce scheme is modelled by a
  monotone counter `idCounter` carried in the state.  `Date.now()` used for
  snapshot ids and timestamps is modelled by a `clock` field that the
  operations leave unchanged (one instant of wall-clock time).
* Event emission (`EventTarget.dispatchEvent`) is modelled by each
  operation returning the list of events it emits, in emission order.
-/

namespace WidgetPlayground

/-- 2-D position in canvas-local pixel coordinates. -/
structure Position where
  x : ℚ
  y : ℚ
  deriving DecidableEq, Repr

/-- A widget size in pixels. -/
structure Size where
  width : ℚ
  height : ℚ
  deriving DecidableEq, Repr

/-- `Record<string, unknown>` properties, modelled as an ordered
string-keyed association list with opaque (string) values. -/
abbrev Props := List (String × String)

/-- One widget instance on the canvas (`WidgetPlacement` in `types.ts`). -/
structure WidgetPlacement where
  id : Nat
  tag : String
  position : Position
  size : Size
  properties : Props
  zIndex : Int
  deriving DecidableEq, Repr

/-- Canvas configuration (`CanvasConfig`). -/
structure CanvasConfig where
  width : ℚ
  height : ℚ
  gridSize : ℚ
  snapToGrid : Bool
  showGrid : Bool
  deriving DecidableEq, Repr

/-- `Partial<CanvasConfig>`: every field optional; spread-merge semantics. -/
structure ConfigPatch where
  width : Option ℚ := none
  height : Option ℚ := none
  gridSize : Option ℚ := none
  snapToGrid : Option Bool := none
  showGrid : Option Bool := none
  deriving DecidableEq, Repr

/-- `{ ...c, ...p }`: fields present in the patch override `c`. -/
def mergeConfig (c : CanvasConfig) (p : ConfigPatch) : CanvasConfig :=
  { width := p.width.getD c.width
    height := p.height.getD c.height
    gridSize := p.gridSize.getD c.gridSize
    snapToGrid := p.snapToGrid.getD c.snapToGrid
    showGrid := p.showGrid.getD c.showGrid }

/-- A full-state snapshot (`CanvasSnapshot`).  The `snapshot-${Date.now()}`
id string is modelled by the clock value. -/
structure CanvasSnapshot where
  id : Nat
  name : String
  timestamp : Nat
  config : CanvasConfig
  widgets : List WidgetPlacement
  deriving DecidableEq, Repr

/-- The events the engine emits (`CanvasEventType` plus payloads). -/
inductive CanvasEvent where
  | widgetAdd (widget : WidgetPlacement)
  | widgetRemove (widget : WidgetPlacement)
  | widgetMove (widgetId : Nat) (oldPosition newPosition : Position)
  | widgetResize (widgetId : Nat) (oldSize newSize : Size)
  | widgetSelect (widgetId : Nat)
  | widgetDeselect (widgetId : Nat)
  | canvasChange
  deriving DecidableEq, Repr

/-- `Map.set`: replace the entry with the same key in place, else append. -/
def mapSet : List WidgetPlacement → WidgetPlacement → List WidgetPlacement
  | [], w => [w]
  | x :: xs, w => if x.id = w.id then w :: xs else x :: mapSet xs w

/-- `Map.get`: the entry with the given key, if any. -/
def mapGet (l : List WidgetPlacement) (id : Nat) : Option WidgetPlacement :=
  l.find? (fun w => w.id = id)

/-- `Map.delete`: remove the entry with the given key. -/
def mapDelete : List WidgetPlacement → Nat → List WidgetPlacement
  | [], _ => []
  | x :: xs, id => if x.id = id then xs else x :: mapDelete xs id

/-- In-place mutation of the entry retrieved by `Map.get`. -/
def mapUpdate : List WidgetPlacement → Nat → (WidgetPlacement → WidgetPlacement) →
    List WidgetPlacement
  | [], _, _ => []
  | x :: xs, id, f => if x.id = id then f x :: xs else x :: mapUpdate xs id f

/-- `{ ...old, ...patch }` on one key: override in place or append. -/
def propSet : Props → String × String → Props
  | [], kv => [kv]
  | x :: xs, kv => if x.1 = kv.1 then kv :: xs else x :: propSet xs kv

/-- Shallow merge `{ ...old, ...patch }` of property records. -/
def mergeProps (old patch : Props) : Props := patch.foldl propSet old

def DEFAULT_CONFIG : CanvasConfig :=
  { width := 1200, height := 800, gridSize := 20, snapToGrid := true, showGrid := true }

def DEFAULT_WIDGET_SIZE : Size := { width := 200, height := 150 }

/-- JS `Math.round`: floor of `q + 1/2` (half rounds toward `+∞`). -/
def jsRound (q : ℚ) : Int := ⌊q + 1 / 2⌋

/-- The engine state: the private fields of class `CanvasState`, plus the
`clock` / `idCounter` fields modelling `Date.now()` and id freshness. -/
structure CanvasState where
  config : CanvasConfig
  widgets : List WidgetPlacement
  selectedId : Option Nat
  nextZIndex : Int
  history : List CanvasSnapshot
  historyIndex : Nat
  idCounter : Nat
  clock : Nat
  deriving DecidableEq, Repr

/-- `_maxHistory = 50`. -/
def maxHistory : Nat := 50

/-- `createSnapshot(name?)`: snapshot of the current state; the default
name is `Snapshot ${history.length + 1}`. -/
def createSnapshot (s : CanvasState) (name : Option String) : CanvasSnapshot :=
  { id := s.clock
    name := name.getD ("Snapshot " ++ toString (s.history.length + 1))
    timestamp := s.clock
    config := s.config
    widgets := s.widgets }

/-- The constructor `new CanvasState(config?)`: default config merged with
the patch, one initial snapshot pushed, cursor at 0. -/
def CanvasState.mk0 (cfg : ConfigPatch) (clock idCounter : Nat) : CanvasState :=
  let base : CanvasState :=
    { config := mergeConfig DEFAULT_CONFIG cfg
      widgets := []
      selectedId := none
      nextZIndex := 1
      history := []
      historyIndex := 0
      idCounter := idCounter
      clock := clock }
  { base with history := [createSnapshot base (some "Initial")], historyIndex := 0 }

/-- `get canUndo` := historyIndex > 0. -/
def canUndo (s : CanvasState) : Bool := decide (0 < s.historyIndex)

/-- `get canRedo` := historyIndex < history.length - 1. -/
def canRedo (s : CanvasState) : Bool := decide (s.historyIndex < s.history.length - 1)

/-- `getWidget(id)`. -/
def getWidget (s : CanvasState) (id : Nat) : Option WidgetPlacement :=
  mapGet s.widgets id

/-- `snapPosition`: identity when snapping is off or the grid size is
falsy, otherwise round each axis to the nearest grid multiple. -/
def snapPosition (s : CanvasState) (position : Position) : Position :=
  if s.config.snapToGrid = false ∨ s.config.gridSize = 0 then position
  else
    let grid := s.config.gridSize
    { x := (jsRound (position.x / grid) : ℚ) * grid
      y := (jsRound (position.y / grid) : ℚ) * grid }

/-- `snapSize`: like `snapPosition` but each dimension is floored at the
grid size (`Math.max(grid, …)`). -/
def snapSize (s : CanvasState) (size : Size) : Size :=
  if s.config.snapToGrid = false ∨ s.config.gridSize = 0 then size
  else
    let grid := s.config.gridSize
    { width := max grid ((jsRound (size.width / grid) : ℚ) * grid)
      height := max grid ((jsRound (size.height / grid) : ℚ) * grid) }

/-- `generateId()`: a fresh opaque id (timestamp+nonce, modelled by the
monotone counter). -/
def generateId (s : CanvasState) : Nat × CanvasState :=
  (s.idCounter, { s with idCounter := s.idCounter + 1 })

/-- `saveHistory()`: truncate the redo branch if the cursor is not at the
end, append a snapshot of the current state, advance the cursor to the new
last index, and evict the oldest entry when over the cap. -/
def saveHistory (s : CanvasState) : CanvasState :=
  let s1 :=
    if s.historyIndex < s.history.length - 1 then
      { s with history := s.history.take (s.historyIndex + 1) }
    else s
  let history := s1.history ++ [createSnapshot s1 none]
  let historyIndex := history.length - 1
  if maxHistory < history.length then
    { s1 with history := history.drop 1, historyIndex := historyIndex - 1 }
  else
    { s1 with history := history, historyIndex := historyIndex }

/-- The out-of-bounds default for history access (unreachable under the
engine's invariants). -/
def emptySnapshot : CanvasSnapshot :=
  { id := 0, name := "", timestamp := 0, config := DEFAULT_CONFIG, widgets := [] }

/-- `this._history[i]`. -/
def histGet (s : CanvasState) (i : Nat) : CanvasSnapshot :=
  s.history.getD i emptySnapshot

/-- `restoreSnapshot(snapshot)`: replace configuration, clear and refill
the widget map, clear selection, and recompute the zIndex counter in the
same loop; emits one `canvas-change`. -/
def restoreSnapshot (s : CanvasState) (snapshot : CanvasSnapshot) :
    CanvasState × List CanvasEvent :=
  let s1 := { s with config := snapshot.config, widgets := [], selectedId := none,
                     nextZIndex := 1 }
  let s2 := snapshot.widgets.foldl
    (fun acc w =>
      { acc with
        widgets := mapSet acc.widgets w,
        nextZIndex := if acc.nextZIndex ≤ w.zIndex then w.zIndex + 1 else acc.nextZIndex })
    s1
  (s2, [CanvasEvent.canvasChange])

/-- `addWidget(tag, position?, size?, properties?)`. -/
def addWidget (s : CanvasState) (tag : String) (position : Option Position)
    (size : Option Size) (properties : Option Props) :
    WidgetPlacement × CanvasState × List CanvasEvent :=
  let (id, s1) := generateId s
  let placement : WidgetPlacement :=
    { id := id
      tag := tag
      position := snapPosition s1 (position.getD { x := 100, y := 100 })
      size := size.getD DEFAULT_WIDGET_SIZE
      properties := properties.getD []
      zIndex := s1.nextZIndex }
  let s2 := { s1 with widgets := mapSet s1.widgets placement,
                      nextZIndex := s1.nextZIndex + 1 }
  (placement, saveHistory s2, [CanvasEvent.widgetAdd placement])

/-- `removeWidget(id)`. -/
def removeWidget (s : CanvasState) (id : Nat) : Bool × CanvasState × List CanvasEvent :=
  match mapGet s.widgets id with
  | none => (false, s, [])
  | some widget =>
    let s1 := { s with widgets := mapDelete s.widgets id }
    let step :=
      if s1.selectedId = some id then
        ({ s1 with selectedId := none }, [CanvasEvent.widgetDeselect id])
      else (s1, ([] : List CanvasEvent))
    (true, saveHistory step.1, step.2 ++ [CanvasEvent.widgetRemove widget])

/-- `moveWidget(id, position)`. -/
def moveWidget (s : CanvasState) (id : Nat) (position : Position) :
    Bool × CanvasState × List CanvasEvent :=
  match mapGet s.widgets id with
  | none => (false, s, [])
  | some widget =>
    let snapped := snapPosition s position
    let s1 := { s with
      widgets := mapUpdate s.widgets id (fun w => { w with position := snapped }) }
    (true, saveHistory s1, [CanvasEvent.widgetMove id widget.position snapped])

/-- `resizeWidget(id, size)`. -/
def resizeWidget (s : CanvasState) (id : Nat) (size : Size) :
    Bool × CanvasState × List CanvasEvent :=
  match mapGet s.widgets id with
  | none => (false, s, [])
  | some widget =>
    let snapped := snapSize s size
    let s1 := { s with
      widgets := mapUpdate s.widgets id (fun w => { w with size := snapped }) }
    (true, saveHistory s1, [CanvasEvent.widgetResize id widget.size snapped])

/-- `updateWidgetProperties(id, properties)`: shallow merge, no history
entry, one generic `canvas-change`. -/
def updateWidgetProperties (s : CanvasState) (id : Nat) (properties : Props) :
    Bool × CanvasState × List CanvasEvent :=
  match mapGet s.widgets id with
  | none => (false, s, [])
  | some _ =>
    let updated :=
      mapUpdate s.widgets id
        (fun w => { w with properties := mergeProps w.properties properties })
    (true, { s with widgets := updated }, [CanvasEvent.canvasChange])

/-- `selectWidget(id | null)`: deselect notification for a different
previous selection, set the selection unconditionally, bump zIndex when
the target is live, emit `widget-select` for any non-null id. -/
def selectWidget (s : CanvasState) (id : Option Nat) : CanvasState × List CanvasEvent :=
  let evs1 :=
    match s.selectedId with
    | some old => if id ≠ some old then [CanvasEvent.widgetDeselect old] else []
    | none => []
  let s1 := { s with selectedId := id }
  match id with
  | none => (s1, evs1)
  | some i =>
    let s2 :=
      match mapGet s1.widgets i with
      | some _ =>
        let bumped := mapUpdate s1.widgets i (fun w => { w with zIndex := s1.nextZIndex })
        { s1 with widgets := bumped, nextZIndex := s1.nextZIndex + 1 }
      | none => s1
    (s2, evs1 ++ [CanvasEvent.widgetSelect i])

/-- `setConfig(config)`: spread-merge, one `canvas-change`, no history. -/
def setConfig (s : CanvasState) (cfg : ConfigPatch) : CanvasState × List CanvasEvent :=
  ({ s with config := mergeConfig s.config cfg }, [CanvasEvent.canvasChange])

/-- `clear()`. -/
def clear (s : CanvasState) : CanvasState × List CanvasEvent :=
  let s1 := { s with widgets := [], selectedId := none, nextZIndex := 1 }
  (saveHistory s1, [CanvasEvent.canvasChange])

/-- `undo()`. -/
def undo (s : CanvasState) : Bool × CanvasState × List CanvasEvent :=
  if canUndo s = false then (false, s, [])
  else
    let s1 := { s with historyIndex := s.historyIndex - 1 }
    let r := restoreSnapshot s1 (histGet s1 s1.historyIndex)
    (true, r.1, r.2)

/-- `redo()`. -/
def redo (s : CanvasState) : Bool × CanvasState × List CanvasEvent :=
  if canRedo s = false then (false, s, [])
  else
    let s1 := { s with historyIndex := s.historyIndex + 1 }
    let r := restoreSnapshot s1 (histGet s1 s1.historyIndex)
    (true, r.1, r.2)

/-- `toJSON()`. -/
def toJSON (s : CanvasState) : CanvasSnapshot := createSnapshot s (some "Export")

/-- `fromJSON(data)`: restore, then append a fresh history entry. -/
def fromJSON (s : CanvasState) (data : CanvasSnapshot) : CanvasState × List CanvasEvent :=
  let r := restoreSnapshot s data
  (saveHistory r.1, r.2)

/-- A snapshot the import boundary may legitimately hand to `fromJSON`
(§7: the engine may assume well-formed input): unique widget ids, zIndex
values from the engine's counter discipline, ids from the id scheme. -/
def WFSnapshot (s : CanvasState) (snap : CanvasSnapshot) : Prop :=
  (snap.widgets.map WidgetPlacement.id).Nodup ∧
  ∀ w ∈ snap.widgets, 1 ≤ w.zIndex ∧ w.id < s.idCounter

/-- Engine states reachable through the public operations of §4.1. -/
inductive Reachable : CanvasState → Prop where
  | init (cfg : ConfigPatch) (clock idCounter : Nat) :
      Reachable (CanvasState.mk0 cfg clock idCounter)
  | addWidget (s : CanvasState) (tag : String) (position : Option Position)
      (size : Option Size) (properties : Option Props) (h : Reachable s) :
      Reachable (addWidget s tag position size properties).2.1
  | removeWidget (s : CanvasState) (id : Nat) (h : Reachable s) :
      Reachable (removeWidget s id).2.1
  | moveWidget (s : CanvasState) (id : Nat) (position : Position) (h : Reachable s) :
      Reachable (moveWidget s id position).2.1
  | resizeWidget (s : CanvasState) (id : Nat) (size : Size) (h : Reachable s) :
      Reachable (resizeWidget s id size).2.1
  | updateWidgetProperties (s : CanvasState) (id : Nat) (properties : Props)
      (h : Reachable s) : Reachable (updateWidgetProperties s id properties).2.1
  | selectWidget (s : CanvasState) (id : Option Nat) (h : Reachable s) :
      Reachable (selectWidget s id).1
  | setConfig (s : CanvasState) (cfg : ConfigPatch) (h : Reachable s) :
      Reachable (setConfig s cfg).1
  | clear (s : CanvasState) (h : Reachable s) : Reachable (clear s).1
  | undo (s : CanvasState) (h : Reachable s) : Reachable (undo s).2.1
  | redo (s : CanvasState) (h : Reachable s) : Reachable (redo s).2.1
  | fromJSON (s : CanvasState) (data : CanvasSnapshot) (h : Reachable s)
      (hwf : WFSnapshot s data) : Reachable (fromJSON s data).1

/-- One step of the counter recomputation loop:
`if (widget.zIndex >= nextZIndex) nextZIndex = widget.zIndex + 1`. -/
def zApply (a : Int) (w : WidgetPlacement) : Int :=
  if a ≤ w.zIndex then w.zIndex + 1 else a

/-- What every snapshot the engine itself produced satisfies: unique
widget ids, zIndex values at least 1, ids below the freshness counter. -/
def snapOk (idc : Nat) (snap : CanvasSnapshot) : Prop :=
  (snap.widgets.map WidgetPlacement.id).Nodup ∧
  ∀ w ∈ snap.widgets, 1 ≤ w.zIndex ∧ w.id < idc

/-- Invariant of reachable engine states. -/
structure Inv (s : CanvasState) : Prop where
  idxLt : s.historyIndex < s.history.length
  lenLe : s.history.length ≤ maxHistory
  countSync : s.widgets.length = (histGet s s.historyIndex).widgets.length
  zBound : ∀ w ∈ s.widgets, w.zIndex < s.nextZIndex
  zPos : ∀ w ∈ s.widgets, 1 ≤ w.zIndex
  nextZPos : 1 ≤ s.nextZIndex
  idsFresh : ∀ w ∈ s.widgets, w.id < s.idCounter
  idsNodup : (s.widgets.map WidgetPlacement.id).Nodup
  histOk : ∀ snap ∈ s.history, snapOk s.idCounter snap

/-- The placement built by `addWidget`. -/
def newPlacement (s : CanvasState) (tag : String) (position : Option Position)
    (size : Option Size) (properties : Option Props) : WidgetPlacement :=
  { id := s.idCounter
    tag := tag
    position := snapPosition s (position.getD { x := 100, y := 100 })
    size := size.getD DEFAULT_WIDGET_SIZE
    properties := properties.getD []
    zIndex := s.nextZIndex }

/-- If the selection is set, it points at a live placement. -/
def SelInv (s : CanvasState) : Prop :=
  ∀ i, s.selectedId = some i → ∃ w, mapGet s.widgets i = some w

/-- Engine states reachable when `selectWidget` is only ever called with
null or the id of a live placement (the discipline the container layer
follows: it selects on click of an existing wrapper). -/
inductive ReachableSel : CanvasState → Prop where
  | init (cfg : ConfigPatch) (clock idCounter : Nat) :
      ReachableSel (CanvasState.mk0 cfg clock idCounter)
  | addWidget (s : CanvasState) (tag : String) (position : Option Position)
      (size : Option Size) (properties : Option Props) (h : ReachableSel s) :
      ReachableSel (addWidget s tag position size properties).2.1
  | removeWidget (s : CanvasState) (id : Nat) (h : ReachableSel s) :
      ReachableSel (removeWidget s id).2.1
  | moveWidget (s : CanvasState) (id : Nat) (position : Position) (h : ReachableSel s) :
      ReachableSel (moveWidget s id position).2.1
  | resizeWidget (s : CanvasState) (id : Nat) (size : Size) (h : ReachableSel s) :
      ReachableSel (resizeWidget s id size).2.1
  | updateWidgetProperties (s : CanvasState) (id : Nat) (properties : Props)
      (h : ReachableSel s) : ReachableSel (updateWidgetProperties s id properties).2.1
  | selectWidget (s : CanvasState) (id : Option Nat) (h : ReachableSel s)
      (hlive : ∀ i, id = some i → ∃ w, mapGet s.widgets i = some w) :
      ReachableSel (selectWidget s id).1
  | setConfig (s : CanvasState) (cfg : ConfigPatch) (h : ReachableSel s) :
      ReachableSel (setConfig s cfg).1
  | clear (s : CanvasState) (h : ReachableSel s) : ReachableSel (clear s).1
  | undo (s : CanvasState) (h : ReachableSel s) : ReachableSel (undo s).2.1
  | redo (s : CanvasState) (h : ReachableSel s) : ReachableSel (redo s).2.1
  | fromJSON (s : CanvasState) (data : CanvasSnapshot) (h : ReachableSel s)
      (hwf : WFSnapshot s data) : ReachableSel (fromJSON s data).1


/-- The resize-drag clamp of `WidgetContainer.startResize` (the mousemove
handler of `src/core/canvas/WidgetContainer.ts`): apply the pointer delta
to the edges adjacent to the grabbed corner, then clamp the candidate size
at the 80 by 60 minimum before handing it to the resize callback. -/
def containerResize (resizeStartSize : Size) (corner : String) (dx dy : ℚ) : Size :=
  let newWidth := resizeStartSize.width + (if corner.contains 'e' then dx else 0)
                    - (if corner.contains 'w' then dx else 0)
  let newHeight := resizeStartSize.height + (if corner.contains 's' then dy else 0)
                    - (if corner.contains 'n' then dy else 0)
  { width := max 80 newWidth, height := max 60 newHeight }

/-- Concrete fixture: a freshly constructed engine. -/
def S0 : CanvasState := CanvasState.mk0 {} 0 0

/-- Fixture: one widget added with all defaults. -/
def S1 : CanvasState := (addWidget S0 "w" none none none).2.1

/-- Fixture: the placement returned by the first `addWidget`. -/
def W0 : WidgetPlacement := (addWidget S0 "w" none none none).1

/-- Fixture: a second widget added. -/
def S2 : CanvasState := (addWidget S1 "w2" none none none).2.1

/-- Fixture: the first widget selected in `S1`. -/
def SSel : CanvasState := (selectWidget S1 (some 0)).1

/-! ## Lemmas about the `Map` model -/

theorem mapGet_nil (i : Nat) : mapGet [] i = none := rfl

theorem mapGet_cons (x : WidgetPlacement) (xs : List WidgetPlacement) (i : Nat) :
    mapGet (x :: xs) i = if x.id = i then some x else mapGet xs i := by
  by_cases h : x.id = i <;> simp [mapGet, List.find?, h]

theorem mapGet_eq_none {l : List WidgetPlacement} {i : Nat} :
    mapGet l i = none ↔ ∀ w ∈ l, w.id ≠ i := by
  simp [mapGet, List.find?_eq_none]

theorem mapGet_some_mem {l : List WidgetPlacement} {i : Nat} {w : WidgetPlacement}
    (h : mapGet l i = some w) : w ∈ l ∧ w.id = i := by
  refine ⟨List.mem_of_find?_eq_some h, ?_⟩
  have := List.find?_some h
  simpa using this

theorem mapSet_of_forall_ne {l : List WidgetPlacement} {w : WidgetPlacement}
    (h : ∀ x ∈ l, x.id ≠ w.id) : mapSet l w = l ++ [w] := by
  induction l with
  | nil => rfl
  | cons x xs ih =>
    simp only [mapSet, if_neg (h x (List.mem_cons_self x xs)), List.cons_append,
      List.cons.injEq, true_and]
    exact ih (fun y hy => h y (List.mem_cons_of_mem x hy))

theorem mapSet_mem {l : List WidgetPlacement} {w v : WidgetPlacement}
    (h : v ∈ mapSet l w) : v ∈ l ∨ v = w := by
  induction l with
  | nil => simp [mapSet] at h; exact Or.inr h
  | cons x xs ih =>
    simp only [mapSet] at h
    by_cases hx : x.id = w.id
    · rw [if_pos hx] at h
      rcases List.mem_cons.mp h with h | h
      · exact Or.inr h
      · exact Or.inl (List.mem_cons_of_mem x h)
    · rw [if_neg hx] at h
      rcases List.mem_cons.mp h with h | h
      · exact Or.inl (h ▸ List.mem_cons_self x xs)
      · rcases ih h with h | h
        · exact Or.inl (List.mem_cons_of_mem x h)
        · exact Or.inr h

theorem foldl_mapSet_append (l : List WidgetPlacement) :
    ∀ acc : List WidgetPlacement, (l.map WidgetPlacement.id).Nodup →
      (∀ w ∈ l, ∀ x ∈ acc, x.id ≠ w.id) → l.foldl mapSet acc = acc ++ l := by
  induction l with
  | nil => intro acc _ _; simp
  | cons w t ih =>
    intro acc hnd hdisj
    rw [List.map_cons, List.nodup_cons] at hnd
    simp only [List.foldl_cons]
    rw [mapSet_of_forall_ne (fun x hx => hdisj w (List.mem_cons_self w t) x hx)]
    rw [ih (acc ++ [w]) hnd.2 ?_]
    · simp
    · intro u hu x hx
      rcases List.mem_append.mp hx with hx | hx
      · exact hdisj u (List.mem_cons_of_mem w hu) x hx
      · have hxw : x = w := by simpa using hx
        subst hxw
        intro hcon
        exact hnd.1 (hcon ▸ List.mem_map_of_mem WidgetPlacement.id hu)

theorem foldl_mapSet_nil {l : List WidgetPlacement}
    (h : (l.map WidgetPlacement.id).Nodup) : l.foldl mapSet [] = l := by
  simpa using foldl_mapSet_append l [] h (by simp)

theorem mapDelete_sublist (l : List WidgetPlacement) (i : Nat) :
    (mapDelete l i).Sublist l := by
  induction l with
  | nil => simp [mapDelete]
  | cons x xs ih =>
    simp only [mapDelete]
    by_cases hx : x.id = i
    · rw [if_pos hx]; exact List.sublist_cons_self x xs
    · rw [if_neg hx]; exact List.Sublist.cons₂ x ih

theorem mapGet_mapDelete_ne {l : List WidgetPlacement} {i j : Nat} (h : j ≠ i) :
    mapGet (mapDelete l i) j = mapGet l j := by
  induction l with
  | nil => rfl
  | cons x xs ih =>
    simp only [mapDelete]
    by_cases hx : x.id = i
    · rw [if_pos hx, mapGet_cons, if_neg (by rw [hx]; exact fun hc => h hc.symm)]
    · rw [if_neg hx, mapGet_cons, mapGet_cons, ih]

theorem mapUpdate_map_id {l : List WidgetPlacement} {i : Nat}
    {f : WidgetPlacement → WidgetPlacement} (hf : ∀ w, (f w).id = w.id) :
    (mapUpdate l i f).map WidgetPlacement.id = l.map WidgetPlacement.id := by
  induction l with
  | nil => rfl
  | cons x xs ih =>
    simp only [mapUpdate]
    by_cases hx : x.id = i
    · rw [if_pos hx]; simp [hf]
    · rw [if_neg hx]; simp [ih]

theorem mapUpdate_length {l : List WidgetPlacement} {i : Nat}
    {f : WidgetPlacement → WidgetPlacement} (hf : ∀ w, (f w).id = w.id) :
    (mapUpdate l i f).length = l.length := by
  have := congrArg List.length (mapUpdate_map_id (l := l) (i := i) hf)
  simpa using this

theorem mapGet_mapUpdate_self {l : List WidgetPlacement} {i : Nat}
    {f : WidgetPlacement → WidgetPlacement} (hf : ∀ w, (f w).id = w.id) :
    mapGet (mapUpdate l i f) i = (mapGet l i).map f := by
  induction l with
  | nil => rfl
  | cons x xs ih =>
    simp only [mapUpdate]
    by_cases hx : x.id = i
    · rw [if_pos hx, mapGet_cons, if_pos (by rw [hf]; exact hx), mapGet_cons, if_pos hx]
      rfl
    · rw [if_neg hx, mapGet_cons, if_neg hx, mapGet_cons, if_neg hx, ih]

theorem mapGet_mapUpdate_ne {l : List WidgetPlacement} {i j : Nat}
    {f : WidgetPlacement → WidgetPlacement} (hf : ∀ w, (f w).id = w.id) (h : j ≠ i) :
    mapGet (mapUpdate l i f) j = mapGet l j := by
  induction l with
  | nil => rfl
  | cons x xs ih =>
    simp only [mapUpdate]
    by_cases hx : x.id = i
    · rw [if_pos hx, mapGet_cons, if_neg (by rw [hf, hx]; exact fun hc => h hc.symm),
        mapGet_cons, if_neg (by rw [hx]; exact fun hc => h hc.symm)]
    · rw [if_neg hx, mapGet_cons, mapGet_cons, ih]

theorem mapUpdate_mem {l : List WidgetPlacement} {i : Nat}
    {f : WidgetPlacement → WidgetPlacement} {v : WidgetPlacement}
    (h : v ∈ mapUpdate l i f) : v ∈ l ∨ ∃ w ∈ l, w.id = i ∧ v = f w := by
  induction l with
  | nil => simp [mapUpdate] at h
  | cons x xs ih =>
    simp only [mapUpdate] at h
    by_cases hx : x.id = i
    · rw [if_pos hx] at h
      rcases List.mem_cons.mp h with h | h
      · exact Or.inr ⟨x, List.mem_cons_self x xs, hx, h⟩
      · exact Or.inl (List.mem_cons_of_mem x h)
    · rw [if_neg hx] at h
      rcases List.mem_cons.mp h with h | h
      · exact Or.inl (h ▸ List.mem_cons_self x xs)
      · rcases ih h with h | ⟨w, hw, hwi, hv⟩
        · exact Or.inl (List.mem_cons_of_mem x h)
        · exact Or.inr ⟨w, List.mem_cons_of_mem x hw, hwi, hv⟩

theorem mapGet_mapSet_ne {l : List WidgetPlacement} {w : WidgetPlacement} {j : Nat}
    (h : j ≠ w.id) : mapGet (mapSet l w) j = mapGet l j := by
  induction l with
  | nil =>
    show mapGet [w] j = mapGet [] j
    rw [mapGet_cons, if_neg (fun hc => h hc.symm), mapGet_nil]
  | cons x xs ih =>
    simp only [mapSet]
    by_cases hx : x.id = w.id
    · rw [if_pos hx, mapGet_cons, if_neg (fun hc => h hc.symm), mapGet_cons,
        if_neg (by rw [hx]; exact fun hc => h hc.symm)]
    · rw [if_neg hx, mapGet_cons, mapGet_cons, ih]

theorem mapGet_mapSet_self {l : List WidgetPlacement} {w : WidgetPlacement} :
    mapGet (mapSet l w) w.id = some w := by
  induction l with
  | nil => simp [mapSet, mapGet_cons]
  | cons x xs ih =>
    simp only [mapSet]
    by_cases hx : x.id = w.id
    · rw [if_pos hx, mapGet_cons, if_pos rfl]
    · rw [if_neg hx, mapGet_cons, if_neg hx, ih]

/-! ## The zIndex counter recomputation of `restoreSnapshot` -/

theorem zApply_eq_max (a : Int) (w : WidgetPlacement) :
    zApply a w = max a (w.zIndex + 1) := by
  unfold zApply
  split <;> omega

theorem foldl_zApply_le (l : List WidgetPlacement) : ∀ a : Int, a ≤ l.foldl zApply a := by
  induction l with
  | nil => intro a; simp
  | cons w t ih =>
    intro a
    calc a ≤ zApply a w := by rw [zApply_eq_max]; exact le_max_left _ _
    _ ≤ (w :: t).foldl zApply a := by simpa using ih (zApply a w)

theorem foldl_zApply_lt_of_mem (l : List WidgetPlacement) :
    ∀ a : Int, ∀ w ∈ l, w.zIndex < l.foldl zApply a := by
  induction l with
  | nil => intro a w hw; simp at hw
  | cons x t ih =>
    intro a w hw
    rcases List.mem_cons.mp hw with hw | hw
    · subst hw
      calc w.zIndex < zApply a w := by rw [zApply_eq_max]; omega
      _ ≤ (w :: t).foldl zApply a := by simpa using foldl_zApply_le t (zApply a w)
    · simpa using ih (zApply a x) w hw

theorem foldl_zApply_eq_foldl_max (l : List WidgetPlacement) :
    ∀ a : Int, l.foldl zApply a = (l.map (fun w => w.zIndex + 1)).foldl max a := by
  induction l with
  | nil => intro a; rfl
  | cons w t ih =>
    intro a
    simp only [List.foldl_cons, List.map_cons, zApply_eq_max]
    exact ih (max a (w.zIndex + 1))

theorem foldl_max_eq_of_maximum (xs : List Int) :
    ∀ a m : Int, xs.maximum = some m → xs.foldl max a = max a m := by
  induction xs with
  | nil => intro a m hm; simp [List.maximum_nil] at hm
  | cons x t ih =>
    intro a m hm
    rw [List.maximum_cons] at hm
    simp only [List.foldl_cons]
    rcases ht : t.maximum with _ | m2
    · have hte : t = [] := List.maximum_eq_none.mp ht
      subst hte
      simp only [List.maximum_nil, max_bot_right] at hm
      have h2 : (x : WithBot Int) = (m : WithBot Int) := hm
      have hxm : x = m := WithBot.coe_inj.mp h2
      simp [hxm]
    · rw [ht] at hm
      have h2 : ((x : WithBot Int) ⊔ (m2 : WithBot Int)) = (m : WithBot Int) := hm
      rw [← WithBot.coe_max] at h2
      have hm2 : m = max x m2 := (WithBot.coe_inj.mp h2).symm
      rw [ih (max a x) m2 ht, hm2, max_assoc]

theorem foldl_max_add_one (xs : List Int) :
    ∀ a : Int, (xs.map (fun z => z + 1)).foldl max a = xs.foldl max (a - 1) + 1 := by
  induction xs with
  | nil => intro a; simp
  | cons x t ih =>
    intro a
    simp only [List.map_cons, List.foldl_cons]
    rw [ih (max a (x + 1))]
    have : max a (x + 1) - 1 = max (a - 1) x := by omega
    rw [this]

theorem foldl_zApply_one (l : List WidgetPlacement)
    (h1 : ∀ w ∈ l, 1 ≤ w.zIndex) (m : Int)
    (hm : (l.map WidgetPlacement.zIndex).maximum = some m) :
    l.foldl zApply 1 = m + 1 := by
  have hmem : m ∈ l.map WidgetPlacement.zIndex := List.maximum_mem hm
  have hm1 : 1 ≤ m := by
    rcases List.mem_map.mp hmem with ⟨w, hw, hwz⟩
    exact hwz ▸ h1 w hw
  have hcomp : l.map (fun w => w.zIndex + 1) =
      (l.map WidgetPlacement.zIndex).map (fun z => z + 1) := by
    rw [List.map_map]; rfl
  rw [foldl_zApply_eq_foldl_max, hcomp, foldl_max_add_one,
    show (1 : Int) - 1 = 0 from by norm_num,
    foldl_max_eq_of_maximum (l.map WidgetPlacement.zIndex) 0 m hm]
  omega

/-! ## `List.getD` helpers for history access -/

theorem getD_append_lt {α : Type} (l l2 : List α) :
    ∀ (i : Nat) (d : α), i < l.length → (l ++ l2).getD i d = l.getD i d := by
  induction l with
  | nil => intro i d h; simp at h
  | cons x xs ih =>
    intro i d h
    cases i with
    | zero => rfl
    | succ j =>
      simp only [List.cons_append, List.getD_cons_succ]
      exact ih j d (by simpa using h)

theorem getD_append_self {α : Type} (l : List α) (a d : α) :
    (l ++ [a]).getD l.length d = a := by
  induction l with
  | nil => rfl
  | cons x xs ih =>
    simp only [List.cons_append, List.length_cons, List.getD_cons_succ]
    exact ih

theorem getD_drop_one {α : Type} (l : List α) (i : Nat) (d : α) :
    (l.drop 1).getD i d = l.getD (i + 1) d := by
  cases l with
  | nil => rfl
  | cons x xs => rfl

theorem getD_take_lt {α : Type} (l : List α) :
    ∀ (n i : Nat) (d : α), i < n → (l.take n).getD i d = l.getD i d := by
  induction l with
  | nil => intro n i d _; simp
  | cons x xs ih =>
    intro n i d h
    cases n with
    | zero => omega
    | succ n2 =>
      cases i with
      | zero => rfl
      | succ j =>
        simp only [List.take_succ_cons, List.getD_cons_succ]
        exact ih n2 j d (by omega)

theorem getD_mem {α : Type} (l : List α) :
    ∀ (i : Nat) (d : α), i < l.length → l.getD i d ∈ l := by
  induction l with
  | nil => intro i d h; simp at h
  | cons x xs ih =>
    intro i d h
    cases i with
    | zero => exact List.mem_cons_self x xs
    | succ j =>
      simp only [List.getD_cons_succ]
      exact List.mem_cons_of_mem x (ih j d (by simpa using h))

/-! ## Structure lemmas for `restoreSnapshot` and `saveHistory` -/

theorem restore_foldl (l : List WidgetPlacement) :
    ∀ acc : CanvasState,
      l.foldl (fun acc w =>
        { acc with
          widgets := mapSet acc.widgets w,
          nextZIndex := if acc.nextZIndex ≤ w.zIndex then w.zIndex + 1 else acc.nextZIndex }) acc
      = { acc with widgets := l.foldl mapSet acc.widgets,
                   nextZIndex := l.foldl zApply acc.nextZIndex } := by
  induction l with
  | nil => intro acc; rfl
  | cons w t ih =>
    intro acc
    simp only [List.foldl_cons]
    rw [ih]
    rfl

theorem restoreSnapshot_fst (s : CanvasState) (snapshot : CanvasSnapshot) :
    (restoreSnapshot s snapshot).1 =
      { s with config := snapshot.config,
               widgets := snapshot.widgets.foldl mapSet [],
               selectedId := none,
               nextZIndex := snapshot.widgets.foldl zApply 1 } := by
  unfold restoreSnapshot
  dsimp only
  rw [restore_foldl]

theorem restoreSnapshot_snd (s : CanvasState) (snapshot : CanvasSnapshot) :
    (restoreSnapshot s snapshot).2 = [CanvasEvent.canvasChange] := rfl

theorem saveHistory_widgets (s : CanvasState) : (saveHistory s).widgets = s.widgets := by
  simp only [saveHistory]
  split_ifs <;> rfl

theorem saveHistory_config (s : CanvasState) : (saveHistory s).config = s.config := by
  simp only [saveHistory]
  split_ifs <;> rfl

theorem saveHistory_selectedId (s : CanvasState) :
    (saveHistory s).selectedId = s.selectedId := by
  simp only [saveHistory]
  split_ifs <;> rfl

theorem saveHistory_nextZIndex (s : CanvasState) :
    (saveHistory s).nextZIndex = s.nextZIndex := by
  simp only [saveHistory]
  split_ifs <;> rfl

theorem saveHistory_idCounter (s : CanvasState) :
    (saveHistory s).idCounter = s.idCounter := by
  simp only [saveHistory]
  split_ifs <;> rfl

theorem saveHistory_clock (s : CanvasState) : (saveHistory s).clock = s.clock := by
  simp only [saveHistory]
  split_ifs <;> rfl

/-- With the cursor in bounds the two branches of the truncation test agree
on the `take` form, giving a single closed description of `saveHistory`. -/
theorem saveHistory_eq (s : CanvasState) :
    saveHistory s =
      (let t := s.history.take (s.historyIndex + 1)
       let pushed := t ++ [createSnapshot { s with history := t } none]
       if maxHistory < pushed.length then
         { s with history := pushed.drop 1, historyIndex := pushed.length - 1 - 1 }
       else
         { s with history := pushed, historyIndex := pushed.length - 1 }) := by
  simp only [saveHistory]
  by_cases h : s.historyIndex < s.history.length - 1
  · rw [if_pos h]
  · rw [if_neg h]
    have ht : s.history.take (s.historyIndex + 1) = s.history :=
      List.take_of_length_le (by omega)
    simp only [ht]

theorem saveHistory_historyIndex_lt (s : CanvasState)
    (hidx : s.historyIndex < s.history.length) :
    (saveHistory s).historyIndex < (saveHistory s).history.length := by
  rw [saveHistory_eq s]
  dsimp only
  have htl : (s.history.take (s.historyIndex + 1)).length = s.historyIndex + 1 := by
    rw [List.length_take]; omega
  split_ifs with h <;>
    simp only [maxHistory, List.length_append, List.length_singleton,
      List.length_drop, htl] at h ⊢ <;> omega

theorem saveHistory_cap (s : CanvasState) (hidx : s.historyIndex < s.history.length)
    (hlen : s.history.length ≤ maxHistory) :
    (saveHistory s).history.length ≤ maxHistory := by
  rw [saveHistory_eq s]
  dsimp only
  have htl : (s.history.take (s.historyIndex + 1)).length = s.historyIndex + 1 := by
    rw [List.length_take]; omega
  rw [maxHistory] at hlen
  split_ifs with h <;>
    simp only [maxHistory, List.length_append, List.length_singleton,
      List.length_drop, htl] at h ⊢ <;> omega

theorem saveHistory_historyIndex_pos (s : CanvasState)
    (hidx : s.historyIndex < s.history.length) :
    1 ≤ (saveHistory s).historyIndex := by
  rw [saveHistory_eq s]
  dsimp only
  have htl : (s.history.take (s.historyIndex + 1)).length = s.historyIndex + 1 := by
    rw [List.length_take]; omega
  split_ifs with h <;>
    simp only [maxHistory, List.length_append, List.length_singleton, htl] at h ⊢ <;>
    omega

/-- The entry at the new cursor is the snapshot of the current state. -/
theorem saveHistory_last (s : CanvasState) (hidx : s.historyIndex < s.history.length) :
    histGet (saveHistory s) (saveHistory s).historyIndex =
      createSnapshot { s with history := s.history.take (s.historyIndex + 1) } none := by
  rw [saveHistory_eq s]
  dsimp only
  split_ifs with h
  · simp only [histGet, List.length_append, List.length_singleton]
    rw [getD_drop_one]
    have : (s.history.take (s.historyIndex + 1)).length + 1 - 1 - 1 + 1 =
        (s.history.take (s.historyIndex + 1)).length := by
      simp only [maxHistory, List.length_append, List.length_singleton] at h
      omega
    rw [this, getD_append_self]
  · simp only [histGet, List.length_append, List.length_singleton]
    have : (s.history.take (s.historyIndex + 1)).length + 1 - 1 =
        (s.history.take (s.historyIndex + 1)).length := by omega
    rw [this, getD_append_self]

/-- The entry just before the new cursor is the entry the cursor pointed at
before the push: undo right after a mutation restores the pre-mutation
state. -/
theorem saveHistory_prev (s : CanvasState) (hidx : s.historyIndex < s.history.length) :
    histGet (saveHistory s) ((saveHistory s).historyIndex - 1) =
      histGet s s.historyIndex := by
  have htl : (s.history.take (s.historyIndex + 1)).length = s.historyIndex + 1 :=
    List.length_take_of_le (by omega)
  rw [saveHistory_eq s]
  dsimp only
  split_ifs with h
  · simp only [histGet, List.length_append, List.length_singleton]
    rw [getD_drop_one]
    simp only [maxHistory, List.length_append, List.length_singleton] at h
    have hstep : (s.history.take (s.historyIndex + 1)).length + 1 - 1 - 1 - 1 + 1 =
        s.historyIndex := by omega
    rw [hstep, getD_append_lt _ _ _ _ (by omega), getD_take_lt _ _ _ _ (by omega)]
  · simp only [histGet, List.length_append, List.length_singleton]
    have hstep : (s.history.take (s.historyIndex + 1)).length + 1 - 1 - 1 =
        s.historyIndex := by omega
    rw [hstep, getD_append_lt _ _ _ _ (by omega), getD_take_lt _ _ _ _ (by omega)]

theorem saveHistory_canRedo (s : CanvasState)
    (hidx : s.historyIndex < s.history.length) :
    canRedo (saveHistory s) = false := by
  rw [saveHistory_eq s]
  dsimp only
  split_ifs with h <;> simp [canRedo]

theorem mem_append_single {α : Type} {x c : α} {l : List α}
    (h : x ∈ l ++ [c]) : x ∈ l ∨ x = c := by
  rcases List.mem_append.mp h with h | h
  · exact Or.inl h
  · exact Or.inr (by simpa using h)

/-- Every entry of the new history is either an old entry or the freshly
pushed snapshot of the current widgets/config. -/
theorem saveHistory_mem (s : CanvasState) :
    ∀ snap ∈ (saveHistory s).history,
      snap ∈ s.history ∨ (snap.widgets = s.widgets ∧ snap.config = s.config) := by
  intro snap hsnap
  simp only [saveHistory] at hsnap
  split_ifs at hsnap with h1 h2 h2
  · rcases mem_append_single (List.mem_of_mem_drop hsnap) with h | h
    · exact Or.inl (List.mem_of_mem_take h)
    · exact Or.inr (h ▸ ⟨rfl, rfl⟩)
  · rcases mem_append_single hsnap with h | h
    · exact Or.inl (List.mem_of_mem_take h)
    · exact Or.inr (h ▸ ⟨rfl, rfl⟩)
  · rcases mem_append_single (List.mem_of_mem_drop hsnap) with h | h
    · exact Or.inl h
    · exact Or.inr (h ▸ ⟨rfl, rfl⟩)
  · rcases mem_append_single hsnap with h | h
    · exact Or.inl h
    · exact Or.inr (h ▸ ⟨rfl, rfl⟩)

/-! ## The engine invariant -/

theorem snapOk_mono {idc idc2 : Nat} (h : idc ≤ idc2) {snap : CanvasSnapshot}
    (hs : snapOk idc snap) : snapOk idc2 snap :=
  ⟨hs.1, fun w hw => ⟨(hs.2 w hw).1, lt_of_lt_of_le (hs.2 w hw).2 h⟩⟩

theorem histGet_set_index (s : CanvasState) (j k : Nat) :
    histGet { s with historyIndex := j } k = histGet s k := rfl

theorem mapSet_forall {l : List WidgetPlacement} {w : WidgetPlacement}
    {p : WidgetPlacement → Prop} (hp : ∀ x ∈ l, p x) (hw : p w) :
    ∀ x ∈ mapSet l w, p x := by
  intro x hx
  rcases mapSet_mem hx with h | h
  · exact hp x h
  · exact h ▸ hw

theorem mapDelete_forall {l : List WidgetPlacement} {i : Nat}
    {p : WidgetPlacement → Prop} (hp : ∀ x ∈ l, p x) :
    ∀ x ∈ mapDelete l i, p x :=
  fun x hx => hp x ((mapDelete_sublist l i).subset hx)

theorem mapUpdate_forall_z {l : List WidgetPlacement} {i : Nat}
    {f : WidgetPlacement → WidgetPlacement} (hfz : ∀ w, (f w).zIndex = w.zIndex)
    {p : Int → Prop} (hp : ∀ w ∈ l, p w.zIndex) :
    ∀ w ∈ mapUpdate l i f, p w.zIndex := by
  intro w hw
  rcases mapUpdate_mem hw with h | ⟨w0, hw0, _, hfw⟩
  · exact hp w h
  · rw [hfw, hfz]; exact hp w0 hw0

theorem mapUpdate_forall_id {l : List WidgetPlacement} {i : Nat}
    {f : WidgetPlacement → WidgetPlacement} (hfid : ∀ w, (f w).id = w.id)
    {p : Nat → Prop} (hp : ∀ w ∈ l, p w.id) :
    ∀ w ∈ mapUpdate l i f, p w.id := by
  intro w hw
  rcases mapUpdate_mem hw with h | ⟨w0, hw0, _, hfw⟩
  · exact hp w h
  · rw [hfw, hfid]; exact hp w0 hw0

theorem inv_saveHistory {s : CanvasState}
    (hidx : s.historyIndex < s.history.length)
    (hlen : s.history.length ≤ maxHistory)
    (hzB : ∀ w ∈ s.widgets, w.zIndex < s.nextZIndex)
    (hzP : ∀ w ∈ s.widgets, 1 ≤ w.zIndex)
    (hnp : 1 ≤ s.nextZIndex)
    (hif : ∀ w ∈ s.widgets, w.id < s.idCounter)
    (hnd : (s.widgets.map WidgetPlacement.id).Nodup)
    (hh : ∀ snap ∈ s.history, snapOk s.idCounter snap) :
    Inv (saveHistory s) := by
  refine ⟨saveHistory_historyIndex_lt s hidx, saveHistory_cap s hidx hlen, ?_, ?_, ?_, ?_,
    ?_, ?_, ?_⟩
  · rw [saveHistory_last s hidx, saveHistory_widgets]
    rfl
  · rw [saveHistory_widgets, saveHistory_nextZIndex]
    exact hzB
  · rw [saveHistory_widgets]
    exact hzP
  · rw [saveHistory_nextZIndex]
    exact hnp
  · rw [saveHistory_widgets, saveHistory_idCounter]
    exact hif
  · rw [saveHistory_widgets]
    exact hnd
  · intro snap hsnap
    rw [saveHistory_idCounter]
    rcases saveHistory_mem s snap hsnap with h | ⟨hw, _⟩
    · exact hh snap h
    · refine ⟨?_, ?_⟩
      · rw [hw]; exact hnd
      · rw [hw]; exact fun w hwm => ⟨hzP w hwm, hif w hwm⟩

theorem inv_mk0 (cfg : ConfigPatch) (clock idCounter : Nat) :
    Inv (CanvasState.mk0 cfg clock idCounter) := by
  refine ⟨?_, ?_, ?_, ?_, ?_, ?_, ?_, ?_, ?_⟩ <;>
    simp [CanvasState.mk0, histGet, createSnapshot, snapOk, maxHistory]

theorem inv_addWidget {s : CanvasState} (h : Inv s) (tag : String)
    (position : Option Position) (size : Option Size) (properties : Option Props) :
    Inv (addWidget s tag position size properties).2.1 := by
  obtain ⟨hidx, hlen, hcs, hzB, hzP, hnp, hif, hnd, hh⟩ := h
  unfold addWidget generateId
  dsimp only
  refine inv_saveHistory hidx hlen ?_ ?_ (by dsimp only; omega) ?_ ?_ ?_
  · exact mapSet_forall (fun x hx => by dsimp only; have := hzB x hx; omega)
      (by dsimp only; omega)
  · exact mapSet_forall (fun x hx => hzP x hx) hnp
  · exact mapSet_forall (fun x hx => by dsimp only; have := hif x hx; omega)
      (by dsimp only; omega)
  · have hfresh : ∀ x ∈ s.widgets, x.id ≠ s.idCounter :=
      fun x hx => Nat.ne_of_lt (hif x hx)
    rw [mapSet_of_forall_ne hfresh, List.map_append]
    rw [List.nodup_append]
    refine ⟨hnd, List.nodup_singleton _, ?_⟩
    intro a ha hb
    have : a = s.idCounter := by simpa using hb
    subst this
    rcases List.mem_map.mp ha with ⟨x, hx, hxa⟩
    exact hfresh x hx hxa
  · exact fun snap hsnap => snapOk_mono (Nat.le_succ _) (hh snap hsnap)

theorem inv_removeWidget {s : CanvasState} (h : Inv s) (id : Nat) :
    Inv (removeWidget s id).2.1 := by
  obtain ⟨hidx, hlen, hcs, hzB, hzP, hnp, hif, hnd, hh⟩ := h
  unfold removeWidget
  cases hg : mapGet s.widgets id with
  | none => exact ⟨hidx, hlen, hcs, hzB, hzP, hnp, hif, hnd, hh⟩
  | some w =>
    dsimp only
    have hndD : ((mapDelete s.widgets id).map WidgetPlacement.id).Nodup :=
      ((mapDelete_sublist s.widgets id).map WidgetPlacement.id).nodup hnd
    split_ifs with hsel
    · exact inv_saveHistory hidx hlen (mapDelete_forall hzB) (mapDelete_forall hzP) hnp
        (mapDelete_forall hif) hndD hh
    · exact inv_saveHistory hidx hlen (mapDelete_forall hzB) (mapDelete_forall hzP) hnp
        (mapDelete_forall hif) hndD hh

theorem inv_moveWidget {s : CanvasState} (h : Inv s) (id : Nat) (position : Position) :
    Inv (moveWidget s id position).2.1 := by
  obtain ⟨hidx, hlen, hcs, hzB, hzP, hnp, hif, hnd, hh⟩ := h
  unfold moveWidget
  cases hg : mapGet s.widgets id with
  | none => exact ⟨hidx, hlen, hcs, hzB, hzP, hnp, hif, hnd, hh⟩
  | some w =>
    dsimp only
    refine inv_saveHistory hidx hlen ?_ ?_ hnp ?_ ?_ hh
    · dsimp only
      exact mapUpdate_forall_z (f := fun w => { w with position := snapPosition s position })
        (p := fun z => z < s.nextZIndex) (fun _ => rfl) hzB
    · dsimp only
      exact mapUpdate_forall_z (f := fun w => { w with position := snapPosition s position })
        (p := fun z => 1 ≤ z) (fun _ => rfl) hzP
    · dsimp only
      exact mapUpdate_forall_id (f := fun w => { w with position := snapPosition s position })
        (p := fun a => a < s.idCounter) (fun _ => rfl) hif
    · dsimp only
      rw [mapUpdate_map_id (f := fun w => { w with position := snapPosition s position })
        (fun _ => rfl)]
      exact hnd

theorem inv_resizeWidget {s : CanvasState} (h : Inv s) (id : Nat) (size : Size) :
    Inv (resizeWidget s id size).2.1 := by
  obtain ⟨hidx, hlen, hcs, hzB, hzP, hnp, hif, hnd, hh⟩ := h
  unfold resizeWidget
  cases hg : mapGet s.widgets id with
  | none => exact ⟨hidx, hlen, hcs, hzB, hzP, hnp, hif, hnd, hh⟩
  | some w =>
    dsimp only
    refine inv_saveHistory hidx hlen ?_ ?_ hnp ?_ ?_ hh
    · dsimp only
      exact mapUpdate_forall_z (f := fun w => { w with size := snapSize s size })
        (p := fun z => z < s.nextZIndex) (fun _ => rfl) hzB
    · dsimp only
      exact mapUpdate_forall_z (f := fun w => { w with size := snapSize s size })
        (p := fun z => 1 ≤ z) (fun _ => rfl) hzP
    · dsimp only
      exact mapUpdate_forall_id (f := fun w => { w with size := snapSize s size })
        (p := fun a => a < s.idCounter) (fun _ => rfl) hif
    · dsimp only
      rw [mapUpdate_map_id (f := fun w => { w with size := snapSize s size })
        (fun _ => rfl)]
      exact hnd

theorem inv_updateWidgetProperties {s : CanvasState} (h : Inv s) (id : Nat)
    (properties : Props) : Inv (updateWidgetProperties s id properties).2.1 := by
  obtain ⟨hidx, hlen, hcs, hzB, hzP, hnp, hif, hnd, hh⟩ := h
  unfold updateWidgetProperties
  cases hg : mapGet s.widgets id with
  | none => exact ⟨hidx, hlen, hcs, hzB, hzP, hnp, hif, hnd, hh⟩
  | some w =>
    dsimp only
    refine ⟨hidx, hlen, ?_, ?_, ?_, hnp, ?_, ?_, hh⟩
    · dsimp only [histGet_set_index]
      rw [show ((mapUpdate s.widgets id
          (fun w => { w with properties := mergeProps w.properties properties })).length)
        = s.widgets.length from mapUpdate_length
          (f := fun w => { w with properties := mergeProps w.properties properties })
          (fun _ => rfl)]
      exact hcs
    · dsimp only
      exact mapUpdate_forall_z
        (f := fun w => { w with properties := mergeProps w.properties properties })
        (p := fun z => z < s.nextZIndex) (fun _ => rfl) hzB
    · dsimp only
      exact mapUpdate_forall_z
        (f := fun w => { w with properties := mergeProps w.properties properties })
        (p := fun z => 1 ≤ z) (fun _ => rfl) hzP
    · dsimp only
      exact mapUpdate_forall_id
        (f := fun w => { w with properties := mergeProps w.properties properties })
        (p := fun a => a < s.idCounter) (fun _ => rfl) hif
    · dsimp only
      rw [mapUpdate_map_id
        (f := fun w => { w with properties := mergeProps w.properties properties })
        (fun _ => rfl)]
      exact hnd

theorem inv_selectWidget {s : CanvasState} (h : Inv s) (id : Option Nat) :
    Inv (selectWidget s id).1 := by
  obtain ⟨hidx, hlen, hcs, hzB, hzP, hnp, hif, hnd, hh⟩ := h
  unfold selectWidget
  cases id with
  | none => exact ⟨hidx, hlen, hcs, hzB, hzP, hnp, hif, hnd, hh⟩
  | some i =>
    dsimp only
    cases hg : mapGet s.widgets i with
    | none => exact ⟨hidx, hlen, hcs, hzB, hzP, hnp, hif, hnd, hh⟩
    | some w =>
      dsimp only
      refine ⟨hidx, hlen, ?_, ?_, ?_, by dsimp only; omega, ?_, ?_, hh⟩
      · dsimp only [histGet_set_index]
        rw [show ((mapUpdate s.widgets i
            (fun w => { w with zIndex := s.nextZIndex })).length)
          = s.widgets.length from mapUpdate_length
            (f := fun w => { w with zIndex := s.nextZIndex }) (fun _ => rfl)]
        exact hcs
      · dsimp only
        intro x hx
        rcases mapUpdate_mem hx with hm | ⟨w0, _, _, hfw⟩
        · have := hzB x hm; omega
        · rw [hfw]; dsimp only; omega
      · dsimp only
        intro x hx
        rcases mapUpdate_mem hx with hm | ⟨w0, _, _, hfw⟩
        · exact hzP x hm
        · rw [hfw]; exact hnp
      · dsimp only
        exact mapUpdate_forall_id (f := fun w => { w with zIndex := s.nextZIndex })
          (p := fun a => a < s.idCounter) (fun _ => rfl) hif
      · dsimp only
        rw [mapUpdate_map_id (f := fun w => { w with zIndex := s.nextZIndex })
          (fun _ => rfl)]
        exact hnd

theorem inv_setConfig {s : CanvasState} (h : Inv s) (cfg : ConfigPatch) :
    Inv (setConfig s cfg).1 := by
  obtain ⟨hidx, hlen, hcs, hzB, hzP, hnp, hif, hnd, hh⟩ := h
  exact ⟨hidx, hlen, hcs, hzB, hzP, hnp, hif, hnd, hh⟩

theorem inv_clear {s : CanvasState} (h : Inv s) : Inv (clear s).1 := by
  obtain ⟨hidx, hlen, hcs, hzB, hzP, hnp, hif, hnd, hh⟩ := h
  unfold clear
  dsimp only
  exact inv_saveHistory hidx hlen (by simp) (by simp) (by dsimp only; omega) (by simp)
    (by simp) hh

theorem inv_restore_aux {s : CanvasState} (snap : CanvasSnapshot)
    (hidx : s.historyIndex < s.history.length)
    (hlen : s.history.length ≤ maxHistory)
    (hh : ∀ s2 ∈ s.history, snapOk s.idCounter s2)
    (hsnap : snapOk s.idCounter snap) :
    let r := { s with config := snap.config,
                      widgets := snap.widgets.foldl mapSet [],
                      selectedId := none,
                      nextZIndex := snap.widgets.foldl zApply 1 }
    (∀ w ∈ r.widgets, w.zIndex < r.nextZIndex) ∧
    (∀ w ∈ r.widgets, 1 ≤ w.zIndex) ∧
    1 ≤ r.nextZIndex ∧
    (∀ w ∈ r.widgets, w.id < r.idCounter) ∧
    (r.widgets.map WidgetPlacement.id).Nodup ∧
    r.widgets = snap.widgets := by
  have hw : snap.widgets.foldl mapSet [] = snap.widgets := foldl_mapSet_nil hsnap.1
  dsimp only
  rw [hw]
  exact ⟨fun w hwm => foldl_zApply_lt_of_mem snap.widgets 1 w hwm,
    fun w hwm => (hsnap.2 w hwm).1,
    foldl_zApply_le snap.widgets 1,
    fun w hwm => (hsnap.2 w hwm).2,
    hsnap.1, rfl⟩

theorem inv_undo {s : CanvasState} (h : Inv s) : Inv (undo s).2.1 := by
  obtain ⟨hidx, hlen, hcs, hzB, hzP, hnp, hif, hnd, hh⟩ := h
  by_cases hc : canUndo s = false
  · unfold undo
    rw [if_pos hc]
    exact ⟨hidx, hlen, hcs, hzB, hzP, hnp, hif, hnd, hh⟩
  · unfold undo
    rw [if_neg hc]
    dsimp only
    have hc2 : 0 < s.historyIndex := by
      by_contra hcon
      exact hc (by simp [canUndo]; omega)
    have hilt : s.historyIndex - 1 < s.history.length := by omega
    have hmem : histGet s (s.historyIndex - 1) ∈ s.history := getD_mem _ _ _ hilt
    have hsnap := hh _ hmem
    rw [histGet_set_index, restoreSnapshot_fst]
    obtain ⟨rzB, rzP, rnp, rif, rnd, rwid⟩ :=
      inv_restore_aux (histGet s (s.historyIndex - 1)) hidx hlen hh hsnap
    refine ⟨hilt, hlen, ?_, rzB, rzP, rnp, rif, rnd, hh⟩
    rw [rwid]
    rfl

theorem inv_redo {s : CanvasState} (h : Inv s) : Inv (redo s).2.1 := by
  obtain ⟨hidx, hlen, hcs, hzB, hzP, hnp, hif, hnd, hh⟩ := h
  by_cases hc : canRedo s = false
  · unfold redo
    rw [if_pos hc]
    exact ⟨hidx, hlen, hcs, hzB, hzP, hnp, hif, hnd, hh⟩
  · unfold redo
    rw [if_neg hc]
    dsimp only
    have hc2 : s.historyIndex < s.history.length - 1 := by
      by_contra hcon
      exact hc (by simp [canRedo]; omega)
    have hilt : s.historyIndex + 1 < s.history.length := by omega
    have hmem : histGet s (s.historyIndex + 1) ∈ s.history := getD_mem _ _ _ hilt
    have hsnap := hh _ hmem
    rw [histGet_set_index, restoreSnapshot_fst]
    obtain ⟨rzB, rzP, rnp, rif, rnd, rwid⟩ :=
      inv_restore_aux (histGet s (s.historyIndex + 1)) hidx hlen hh hsnap
    refine ⟨hilt, hlen, ?_, rzB, rzP, rnp, rif, rnd, hh⟩
    rw [rwid]
    rfl

theorem inv_fromJSON {s : CanvasState} (h : Inv s) (data : CanvasSnapshot)
    (hwf : WFSnapshot s data) : Inv (fromJSON s data).1 := by
  obtain ⟨hidx, hlen, hcs, hzB, hzP, hnp, hif, hnd, hh⟩ := h
  unfold fromJSON
  dsimp only
  rw [restoreSnapshot_fst]
  have hsnap : snapOk s.idCounter data := ⟨hwf.1, hwf.2⟩
  obtain ⟨rzB, rzP, rnp, rif, rnd, _⟩ := inv_restore_aux data hidx hlen hh hsnap
  exact inv_saveHistory hidx hlen rzB rzP rnp rif rnd hh

/-- Every reachable engine state satisfies the invariant. -/
theorem reachable_inv {s : CanvasState} (h : Reachable s) : Inv s := by
  induction h with
  | init cfg clock idCounter => exact inv_mk0 cfg clock idCounter
  | addWidget s tag position size properties _ ih =>
    exact inv_addWidget ih tag position size properties
  | removeWidget s id _ ih => exact inv_removeWidget ih id
  | moveWidget s id position _ ih => exact inv_moveWidget ih id position
  | resizeWidget s id size _ ih => exact inv_resizeWidget ih id size
  | updateWidgetProperties s id properties _ ih =>
    exact inv_updateWidgetProperties ih id properties
  | selectWidget s id _ ih => exact inv_selectWidget ih id
  | setConfig s cfg _ ih => exact inv_setConfig ih cfg
  | clear s _ ih => exact inv_clear ih
  | undo s _ ih => exact inv_undo ih
  | redo s _ ih => exact inv_redo ih
  | fromJSON s data _ hwf ih => exact inv_fromJSON ih data hwf

/-! ## Shape lemmas for the operations -/

theorem addWidget_def (s : CanvasState) (tag : String) (position : Option Position)
    (size : Option Size) (properties : Option Props) :
    addWidget s tag position size properties =
      (newPlacement s tag position size properties,
       saveHistory { s with
         widgets := mapSet s.widgets (newPlacement s tag position size properties),
         nextZIndex := s.nextZIndex + 1,
         idCounter := s.idCounter + 1 },
       [CanvasEvent.widgetAdd (newPlacement s tag position size properties)]) := rfl

theorem removeWidget_some {s : CanvasState} {id : Nat} {w : WidgetPlacement}
    (hg : mapGet s.widgets id = some w) :
    removeWidget s id =
      (true,
       saveHistory (if s.selectedId = some id
         then { s with widgets := mapDelete s.widgets id, selectedId := none }
         else { s with widgets := mapDelete s.widgets id }),
       (if s.selectedId = some id then [CanvasEvent.widgetDeselect id] else [])
         ++ [CanvasEvent.widgetRemove w]) := by
  unfold removeWidget
  rw [hg]
  dsimp only
  split_ifs with h1 <;> rfl

theorem moveWidget_some {s : CanvasState} {id : Nat} {w : WidgetPlacement}
    (position : Position) (hg : mapGet s.widgets id = some w) :
    moveWidget s id position =
      (true,
       saveHistory { s with
         widgets := mapUpdate s.widgets id (fun v => { v with position := snapPosition s position }) },
       [CanvasEvent.widgetMove id w.position (snapPosition s position)]) := by
  unfold moveWidget
  rw [hg]

theorem resizeWidget_some {s : CanvasState} {id : Nat} {w : WidgetPlacement}
    (size : Size) (hg : mapGet s.widgets id = some w) :
    resizeWidget s id size =
      (true,
       saveHistory { s with
         widgets := mapUpdate s.widgets id (fun v => { v with size := snapSize s size }) },
       [CanvasEvent.widgetResize id w.size (snapSize s size)]) := by
  unfold resizeWidget
  rw [hg]

theorem updateWidgetProperties_some {s : CanvasState} {id : Nat} {w : WidgetPlacement}
    (properties : Props) (hg : mapGet s.widgets id = some w) :
    updateWidgetProperties s id properties =
      (true,
       { s with
         widgets := mapUpdate s.widgets id (fun v => { v with properties := mergeProps v.properties properties }) },
       [CanvasEvent.canvasChange]) := by
  unfold updateWidgetProperties
  rw [hg]

theorem selectWidget_some_live {s : CanvasState} {i : Nat} {w : WidgetPlacement}
    (hg : mapGet s.widgets i = some w) :
    selectWidget s (some i) =
      ({ s with selectedId := some i,
                widgets := mapUpdate s.widgets i (fun v => { v with zIndex := s.nextZIndex }),
                nextZIndex := s.nextZIndex + 1 },
       (match s.selectedId with
        | some old => if some i ≠ some old then [CanvasEvent.widgetDeselect old] else []
        | none => []) ++ [CanvasEvent.widgetSelect i]) := by
  unfold selectWidget
  dsimp only
  rw [show mapGet ({ s with selectedId := some i } : CanvasState).widgets i
    = some w from hg]

theorem selectWidget_some_dead {s : CanvasState} {i : Nat}
    (hg : mapGet s.widgets i = none) :
    selectWidget s (some i) =
      ({ s with selectedId := some i },
       (match s.selectedId with
        | some old => if some i ≠ some old then [CanvasEvent.widgetDeselect old] else []
        | none => []) ++ [CanvasEvent.widgetSelect i]) := by
  unfold selectWidget
  dsimp only
  rw [show mapGet ({ s with selectedId := some i } : CanvasState).widgets i
    = none from hg]

theorem undo_succ {s : CanvasState} (hc : canUndo s = true) :
    undo s =
      (true,
       (restoreSnapshot { s with historyIndex := s.historyIndex - 1 }
          (histGet s (s.historyIndex - 1))).1,
       [CanvasEvent.canvasChange]) := by
  unfold undo
  rw [if_neg (by simp [hc])]
  dsimp only
  rw [histGet_set_index, restoreSnapshot_snd]

theorem redo_succ {s : CanvasState} (hc : canRedo s = true) :
    redo s =
      (true,
       (restoreSnapshot { s with historyIndex := s.historyIndex + 1 }
          (histGet s (s.historyIndex + 1))).1,
       [CanvasEvent.canvasChange]) := by
  unfold redo
  rw [if_neg (by simp [hc])]
  dsimp only
  rw [histGet_set_index, restoreSnapshot_snd]

/-! ## The selection-liveness invariant (C6) -/

theorem reachableSel_selInv {s : CanvasState} (h : ReachableSel s) : SelInv s := by
  induction h with
  | init cfg clock idCounter =>
    intro i hi
    simp [CanvasState.mk0] at hi
  | addWidget s tag position size properties _ ih =>
    intro i hi
    rw [addWidget_def] at hi ⊢
    dsimp only at hi ⊢
    rw [saveHistory_selectedId] at hi
    rw [saveHistory_widgets]
    dsimp only at hi ⊢
    by_cases hid : i = (newPlacement s tag position size properties).id
    · exact ⟨_, hid ▸ mapGet_mapSet_self⟩
    · rw [mapGet_mapSet_ne hid]
      exact ih i hi
  | removeWidget s id _ ih =>
    intro i hi
    rcases hg : mapGet s.widgets id with _ | w
    · unfold removeWidget at hi ⊢
      rw [hg] at hi ⊢
      exact ih i hi
    · rw [removeWidget_some hg] at hi ⊢
      dsimp only at hi ⊢
      rw [saveHistory_selectedId] at hi
      rw [saveHistory_widgets]
      by_cases hsel : s.selectedId = some id
      · rw [if_pos hsel] at hi
        dsimp only at hi
        simp at hi
      · rw [if_neg hsel] at hi ⊢
        dsimp only at hi ⊢
        have hne : i ≠ id := fun hcon => hsel (hcon ▸ hi)
        rw [mapGet_mapDelete_ne hne]
        exact ih i hi
  | moveWidget s id position _ ih =>
    intro i hi
    rcases hg : mapGet s.widgets id with _ | w
    · unfold moveWidget at hi ⊢
      rw [hg] at hi ⊢
      exact ih i hi
    · rw [moveWidget_some position hg] at hi ⊢
      dsimp only at hi ⊢
      rw [saveHistory_selectedId] at hi
      rw [saveHistory_widgets]
      dsimp only at hi ⊢
      by_cases hid : i = id
      · subst hid
        obtain ⟨v, hv⟩ := ih i hi
        rw [mapGet_mapUpdate_self
          (f := fun v => { v with position := snapPosition s position }) (fun _ => rfl), hv]
        exact ⟨_, rfl⟩
      · rw [mapGet_mapUpdate_ne
          (f := fun v => { v with position := snapPosition s position }) (fun _ => rfl) hid]
        exact ih i hi
  | resizeWidget s id size _ ih =>
    intro i hi
    rcases hg : mapGet s.widgets id with _ | w
    · unfold resizeWidget at hi ⊢
      rw [hg] at hi ⊢
      exact ih i hi
    · rw [resizeWidget_some size hg] at hi ⊢
      dsimp only at hi ⊢
      rw [saveHistory_selectedId] at hi
      rw [saveHistory_widgets]
      dsimp only at hi ⊢
      by_cases hid : i = id
      · subst hid
        obtain ⟨v, hv⟩ := ih i hi
        rw [mapGet_mapUpdate_self
          (f := fun v => { v with size := snapSize s size }) (fun _ => rfl), hv]
        exact ⟨_, rfl⟩
      · rw [mapGet_mapUpdate_ne
          (f := fun v => { v with size := snapSize s size }) (fun _ => rfl) hid]
        exact ih i hi
  | updateWidgetProperties s id properties _ ih =>
    intro i hi
    rcases hg : mapGet s.widgets id with _ | w
    · unfold updateWidgetProperties at hi ⊢
      rw [hg] at hi ⊢
      exact ih i hi
    · rw [updateWidgetProperties_some properties hg] at hi ⊢
      dsimp only at hi ⊢
      by_cases hid : i = id
      · subst hid
        obtain ⟨v, hv⟩ := ih i hi
        rw [mapGet_mapUpdate_self
          (f := fun v => { v with properties := mergeProps v.properties properties })
          (fun _ => rfl), hv]
        exact ⟨_, rfl⟩
      · rw [mapGet_mapUpdate_ne
          (f := fun v => { v with properties := mergeProps v.properties properties })
          (fun _ => rfl) hid]
        exact ih i hi
  | selectWidget s id _ hlive ih =>
    intro i hi
    cases id with
    | none =>
      unfold selectWidget at hi
      dsimp only at hi
      exact absurd hi (by simp)
    | some j =>
      obtain ⟨w, hw⟩ := hlive j rfl
      rw [selectWidget_some_live hw] at hi ⊢
      dsimp only at hi ⊢
      have hij : i = j := by simpa using hi.symm
      subst hij
      rw [mapGet_mapUpdate_self
        (f := fun v => { v with zIndex := s.nextZIndex }) (fun _ => rfl), hw]
      exact ⟨_, rfl⟩
  | setConfig s cfg _ ih =>
    intro i hi
    exact ih i hi
  | clear s _ ih =>
    intro i hi
    unfold clear at hi
    dsimp only at hi
    rw [saveHistory_selectedId] at hi
    exact absurd hi (by simp)
  | undo s _ ih =>
    intro i hi
    by_cases hc : canUndo s = false
    · unfold undo at hi ⊢
      rw [if_pos hc] at hi ⊢
      exact ih i hi
    · rw [undo_succ (by simpa using hc)] at hi ⊢
      dsimp only at hi ⊢
      rw [restoreSnapshot_fst] at hi
      exact absurd hi (by simp)
  | redo s _ ih =>
    intro i hi
    by_cases hc : canRedo s = false
    · unfold redo at hi ⊢
      rw [if_pos hc] at hi ⊢
      exact ih i hi
    · rw [redo_succ (by simpa using hc)] at hi ⊢
      dsimp only at hi ⊢
      rw [restoreSnapshot_fst] at hi
      exact absurd hi (by simp)
  | fromJSON s data _ hwf ih =>
    intro i hi
    unfold fromJSON at hi
    dsimp only at hi
    rw [saveHistory_selectedId, restoreSnapshot_fst] at hi
    exact absurd hi (by simp)

/-- Undo right after a history-saving mutation succeeds and restores the
snapshot the cursor pointed at before the push; redo then succeeds and
restores the pushed snapshot of the mutated state. -/
theorem undo_saveHistory (s2 : CanvasState)
    (hidx : s2.historyIndex < s2.history.length) :
    (undo (saveHistory s2)).1 = true ∧
    (undo (saveHistory s2)).2.1.widgets
      = (histGet s2 s2.historyIndex).widgets.foldl mapSet [] ∧
    canRedo (undo (saveHistory s2)).2.1 = true ∧
    (redo (undo (saveHistory s2)).2.1).1 = true ∧
    (redo (undo (saveHistory s2)).2.1).2.1.widgets = s2.widgets.foldl mapSet [] := by
  have hpos := saveHistory_historyIndex_pos s2 hidx
  have hlt := saveHistory_historyIndex_lt s2 hidx
  have hcu : canUndo (saveHistory s2) = true := by
    simp only [canUndo, decide_eq_true_eq]
    omega
  have h1 : (undo (saveHistory s2)).1 = true := by
    rw [undo_succ hcu]
  have h2 : (undo (saveHistory s2)).2.1.widgets
      = (histGet s2 s2.historyIndex).widgets.foldl mapSet [] := by
    rw [undo_succ hcu]
    dsimp only
    rw [restoreSnapshot_fst]
    dsimp only
    rw [saveHistory_prev s2 hidx]
  have hidxu : (undo (saveHistory s2)).2.1.historyIndex
      = (saveHistory s2).historyIndex - 1 := by
    rw [undo_succ hcu]
    dsimp only
    rw [restoreSnapshot_fst]
  have hhistu : (undo (saveHistory s2)).2.1.history = (saveHistory s2).history := by
    rw [undo_succ hcu]
    dsimp only
    rw [restoreSnapshot_fst]
  have hcr : canRedo (undo (saveHistory s2)).2.1 = true := by
    simp only [canRedo, decide_eq_true_eq, hidxu, hhistu]
    omega
  have h4 : (redo (undo (saveHistory s2)).2.1).1 = true := by
    rw [redo_succ hcr]
  have hg : ∀ k, histGet (undo (saveHistory s2)).2.1 k = histGet (saveHistory s2) k := by
    intro k
    unfold histGet
    rw [hhistu]
  have h5 : (redo (undo (saveHistory s2)).2.1).2.1.widgets
      = s2.widgets.foldl mapSet [] := by
    rw [redo_succ hcr]
    dsimp only
    rw [restoreSnapshot_fst]
    dsimp only
    rw [hidxu, hg]
    have hstep : (saveHistory s2).historyIndex - 1 + 1 = (saveHistory s2).historyIndex := by
      omega
    rw [hstep, saveHistory_last s2 hidx]
    rfl
  exact ⟨h1, h2, hcr, h4, h5⟩

/-! ## The claims -/

/-- C1: after any successful `addWidget` on a reachable engine state the
placement count increases by one; a subsequent `undo` returns true and
restores the pre-add placement count; a subsequent `redo` returns true and
restores the post-add count. (The freshly constructed engine instance of
the claim — counts 1, 0, 1 — is the witness.) -/
theorem claim_C1 (s : CanvasState) (tag : String) (position : Option Position)
    (size : Option Size) (properties : Option Props) (h : Reachable s) :
    (addWidget s tag position size properties).2.1.widgets.length
      = s.widgets.length + 1 ∧
    (undo (addWidget s tag position size properties).2.1).1 = true ∧
    (undo (addWidget s tag position size properties).2.1).2.1.widgets.length
      = s.widgets.length ∧
    (redo (undo (addWidget s tag position size properties).2.1).2.1).1 = true ∧
    (redo (undo (addWidget s tag position size properties).2.1).2.1).2.1.widgets.length
      = s.widgets.length + 1 := by
  have inv := reachable_inv h
  have hfresh : ∀ x ∈ s.widgets, x.id ≠ (newPlacement s tag position size properties).id :=
    fun x hx => Nat.ne_of_lt (inv.idsFresh x hx)
  have hndapp : ((s.widgets ++ [newPlacement s tag position size properties]).map
      WidgetPlacement.id).Nodup := by
    rw [List.map_append, List.nodup_append]
    refine ⟨inv.idsNodup, List.nodup_singleton _, ?_⟩
    intro a ha hb
    have hae : a = (newPlacement s tag position size properties).id := by simpa using hb
    subst hae
    rcases List.mem_map.mp ha with ⟨x, hx, hxa⟩
    exact hfresh x hx hxa
  rw [addWidget_def]
  dsimp only
  set s2 : CanvasState := { s with
    widgets := mapSet s.widgets (newPlacement s tag position size properties),
    nextZIndex := s.nextZIndex + 1,
    idCounter := s.idCounter + 1 } with hs2def
  have hs2w : s2.widgets = s.widgets ++ [newPlacement s tag position size properties] := by
    rw [hs2def]
    dsimp only
    exact mapSet_of_forall_ne hfresh
  obtain ⟨hu1, hu2, _, hr1, hr2⟩ := undo_saveHistory s2 inv.idxLt
  refine ⟨?_, hu1, ?_, hr1, ?_⟩
  · rw [saveHistory_widgets]
    rw [hs2w]
    simp
  · rw [hu2]
    have hsget : histGet s2 s2.historyIndex = histGet s s.historyIndex := rfl
    have hnod : ((histGet s s.historyIndex).widgets.map WidgetPlacement.id).Nodup :=
      (inv.histOk _ (getD_mem _ _ _ inv.idxLt)).1
    rw [hsget, foldl_mapSet_nil hnod]
    exact inv.countSync.symm
  · rw [hr2, hs2w, foldl_mapSet_nil hndapp]
    simp

theorem claim_C1_witness :
    (addWidget S0 "w" none none none).2.1.widgets.length = 1 ∧
    (undo (addWidget S0 "w" none none none).2.1).1 = true ∧
    (undo (addWidget S0 "w" none none none).2.1).2.1.widgets.length = 0 ∧
    (redo (undo (addWidget S0 "w" none none none).2.1).2.1).1 = true ∧
    (redo (undo (addWidget S0 "w" none none none).2.1).2.1).2.1.widgets.length = 1 := by
  have h := claim_C1 S0 "w" none none none (Reachable.init {} 0 0)
  exact ⟨h.1, h.2.1, h.2.2.1, h.2.2.2.1, h.2.2.2.2⟩

/-- C2: on every reachable state, `saveHistory` (the ledger push) first
truncates the entries after the cursor (`take (cursor + 1)`), appends a
snapshot of the current widgets and configuration, advances the cursor to
the new last index, and when the length then exceeds the cap of 50 evicts
index 0 and decrements the cursor; after a push `canRedo` is false, and
the history length never exceeds 50. -/
theorem claim_C2 (s : CanvasState) (h : Reachable s) :
    s.history.length ≤ 50 ∧
    (saveHistory s).history.length ≤ 50 ∧
    canRedo (saveHistory s) = false ∧
    ∃ snap : CanvasSnapshot, snap.widgets = s.widgets ∧ snap.config = s.config ∧
      (saveHistory s).history =
        (if 50 < (s.history.take (s.historyIndex + 1)).length + 1
         then (s.history.take (s.historyIndex + 1) ++ [snap]).drop 1
         else s.history.take (s.historyIndex + 1) ++ [snap]) ∧
      (saveHistory s).historyIndex =
        (if 50 < (s.history.take (s.historyIndex + 1)).length + 1
         then (s.history.take (s.historyIndex + 1)).length - 1
         else (s.history.take (s.historyIndex + 1)).length) := by
  have inv := reachable_inv h
  have hlen : s.history.length ≤ 50 := by
    have := inv.lenLe
    simpa [maxHistory] using this
  refine ⟨hlen, ?_, saveHistory_canRedo s inv.idxLt, ?_⟩
  · have := saveHistory_cap s inv.idxLt inv.lenLe
    simpa [maxHistory] using this
  · refine ⟨createSnapshot { s with history := s.history.take (s.historyIndex + 1) } none,
      rfl, rfl, ?_, ?_⟩
    · rw [saveHistory_eq s]
      dsimp only
      simp only [maxHistory, List.length_append, List.length_singleton]
      split_ifs <;> rfl
    · rw [saveHistory_eq s]
      dsimp only
      simp only [maxHistory, List.length_append, List.length_singleton]
      split_ifs <;> dsimp only <;> omega

theorem claim_C2_witness :
    S0.history.length ≤ 50 ∧
    (saveHistory S0).history.length ≤ 50 ∧
    canRedo (saveHistory S0) = false := by
  have h := claim_C2 S0 (Reachable.init {} 0 0)
  exact ⟨h.1, h.2.1, h.2.2.1⟩

/-- C3: on every reachable state, importing the exported snapshot
(`fromJSON (toJSON s)`) reproduces the widget list exactly (hence the
placement count and every id, position, size, properties map and zIndex)
and the configuration exactly, and reconstructs the zIndex counter as one
greater than the maximum zIndex among the restored placements, or as its
initial value 1 when there are none. -/
theorem claim_C3 (s : CanvasState) (h : Reachable s) :
    (fromJSON s (toJSON s)).1.widgets = s.widgets ∧
    (fromJSON s (toJSON s)).1.widgets.length = s.widgets.length ∧
    (fromJSON s (toJSON s)).1.config = s.config ∧
    (s.widgets = [] → (fromJSON s (toJSON s)).1.nextZIndex = 1) ∧
    (∀ m : Int, (s.widgets.map WidgetPlacement.zIndex).maximum = some m →
      (fromJSON s (toJSON s)).1.nextZIndex = m + 1) := by
  have inv := reachable_inv h
  have hwid : (fromJSON s (toJSON s)).1.widgets = s.widgets := by
    unfold fromJSON
    dsimp only
    rw [saveHistory_widgets, restoreSnapshot_fst]
    exact foldl_mapSet_nil inv.idsNodup
  refine ⟨hwid, by rw [hwid], ?_, ?_, ?_⟩
  · unfold fromJSON
    dsimp only
    rw [saveHistory_config, restoreSnapshot_fst]
    rfl
  · intro he
    unfold fromJSON
    dsimp only
    rw [saveHistory_nextZIndex, restoreSnapshot_fst]
    show (toJSON s).widgets.foldl zApply 1 = 1
    rw [show (toJSON s).widgets = s.widgets from rfl, he]
    rfl
  · intro m hm
    unfold fromJSON
    dsimp only
    rw [saveHistory_nextZIndex, restoreSnapshot_fst]
    show (toJSON s).widgets.foldl zApply 1 = m + 1
    rw [show (toJSON s).widgets = s.widgets from rfl]
    exact foldl_zApply_one s.widgets inv.zPos m hm

theorem claim_C3_witness :
    (fromJSON S0 (toJSON S0)).1.widgets = S0.widgets ∧
    (fromJSON S0 (toJSON S0)).1.config = S0.config ∧
    (fromJSON S0 (toJSON S0)).1.nextZIndex = 1 := by
  have h := claim_C3 S0 (Reachable.init {} 0 0)
  exact ⟨h.1, h.2.2.1, h.2.2.2.1 rfl⟩

/-- C7: on every reachable state, selecting a live placement assigns it
the current counter value as zIndex, which is strictly greater than the
zIndex of every other live placement, and advances the counter;
`addWidget` likewise assigns the current counter value and advances it —
so zIndex values are assigned in strictly increasing order. -/
theorem claim_C7 (s : CanvasState) (id : Nat) (w : WidgetPlacement) (h : Reachable s)
    (hw : getWidget s id = some w) :
    (getWidget (selectWidget s (some id)).1 id
       = some { w with zIndex := s.nextZIndex } ∧
     (∀ v ∈ (selectWidget s (some id)).1.widgets, v.id ≠ id →
       v.zIndex < s.nextZIndex) ∧
     (selectWidget s (some id)).1.nextZIndex = s.nextZIndex + 1) ∧
    (∀ tag position size properties,
      (addWidget s tag position size properties).1.zIndex = s.nextZIndex ∧
      (addWidget s tag position size properties).2.1.nextZIndex = s.nextZIndex + 1) := by
  have inv := reachable_inv h
  rw [getWidget] at hw
  refine ⟨⟨?_, ?_, ?_⟩, ?_⟩
  · rw [selectWidget_some_live hw]
    dsimp only
    rw [getWidget]
    dsimp only
    rw [mapGet_mapUpdate_self (f := fun v => { v with zIndex := s.nextZIndex })
      (fun _ => rfl), hw]
    rfl
  · rw [selectWidget_some_live hw]
    dsimp only
    intro v hv hvne
    rcases mapUpdate_mem hv with hm | ⟨w0, hw0, hw0i, hfw⟩
    · exact inv.zBound v hm
    · exact absurd (by rw [hfw]; exact hw0i) hvne
  · rw [selectWidget_some_live hw]
  · intro tag position size properties
    rw [addWidget_def]
    exact ⟨rfl, by rw [saveHistory_nextZIndex]⟩

theorem claim_C7_witness :
    getWidget (selectWidget S2 (some 0)).1 0 = some { W0 with zIndex := S2.nextZIndex } ∧
    (selectWidget S2 (some 0)).1.nextZIndex = S2.nextZIndex + 1 := by
  have hr : Reachable S2 :=
    Reachable.addWidget S1 "w2" none none none
      (Reachable.addWidget S0 "w" none none none (Reachable.init {} 0 0))
  have h := claim_C7 S2 0 W0 hr (by rfl)
  exact ⟨h.1.1, h.1.2.2⟩

/-- C4: operations referencing an unknown placement id (`removeWidget`,
`moveWidget`, `resizeWidget`, `updateProperties`) return false, leave the
entire engine state unchanged and emit no notification; `undo` at the
start of history and `redo` at the end of history likewise return false
with no state change and no notification. -/
theorem claim_C4 (s : CanvasState) (id : Nat) (position : Position) (size : Size)
    (properties : Props) :
    (getWidget s id = none →
      removeWidget s id = (false, s, []) ∧
      moveWidget s id position = (false, s, []) ∧
      resizeWidget s id size = (false, s, []) ∧
      updateWidgetProperties s id properties = (false, s, [])) ∧
    (canUndo s = false → undo s = (false, s, [])) ∧
    (canRedo s = false → redo s = (false, s, [])) := by
  refine ⟨?_, ?_, ?_⟩
  · intro hg
    rw [getWidget] at hg
    refine ⟨?_, ?_, ?_, ?_⟩
    · unfold removeWidget; rw [hg]
    · unfold moveWidget; rw [hg]
    · unfold resizeWidget; rw [hg]
    · unfold updateWidgetProperties; rw [hg]
  · intro hc; unfold undo; rw [if_pos hc]
  · intro hc; unfold redo; rw [if_pos hc]

theorem claim_C4_witness :
    removeWidget S0 7 = (false, S0, []) ∧
    moveWidget S0 7 { x := 1, y := 2 } = (false, S0, []) ∧
    undo S0 = (false, S0, []) ∧
    redo S0 = (false, S0, []) := by
  have h := claim_C4 S0 7 { x := 1, y := 2 } { width := 3, height := 4 } []
  exact ⟨(h.1 rfl).1, (h.1 rfl).2.1, h.2.1 rfl, h.2.2 rfl⟩

/-- C5: if snap-to-grid is disabled or the grid size is unset both
snapping functions are the identity; otherwise each axis is independently
snapped to `round(value / gridSize) * gridSize` (JS round = floor of the
value plus one half), sizes are additionally floored at the grid size, so
with gridSize 20 no snapped dimension is below 20; with gridSize 20 and
snapping on, position (105, 213) snaps to (100, 220). -/
theorem claim_C5 (s : CanvasState) (p : Position) (sz : Size) :
    ((s.config.snapToGrid = false ∨ s.config.gridSize = 0) →
      snapPosition s p = p ∧ snapSize s sz = sz) ∧
    (s.config.snapToGrid = true → s.config.gridSize ≠ 0 →
      snapPosition s p =
        { x := (⌊p.x / s.config.gridSize + 1 / 2⌋ : ℚ) * s.config.gridSize,
          y := (⌊p.y / s.config.gridSize + 1 / 2⌋ : ℚ) * s.config.gridSize } ∧
      snapSize s sz =
        { width := max s.config.gridSize
            ((⌊sz.width / s.config.gridSize + 1 / 2⌋ : ℚ) * s.config.gridSize),
          height := max s.config.gridSize
            ((⌊sz.height / s.config.gridSize + 1 / 2⌋ : ℚ) * s.config.gridSize) } ∧
      (s.config.gridSize = 20 →
        20 ≤ (snapSize s sz).width ∧ 20 ≤ (snapSize s sz).height)) ∧
    (s.config.snapToGrid = true → s.config.gridSize = 20 →
      snapPosition s { x := 105, y := 213 } = { x := 100, y := 220 }) := by
  refine ⟨?_, ?_, ?_⟩
  · intro h
    constructor
    · rw [snapPosition, if_pos h]
    · rw [snapSize, if_pos h]
  · intro h1 h2
    have hcond : ¬(s.config.snapToGrid = false ∨ s.config.gridSize = 0) := by
      simp [h1, h2]
    refine ⟨?_, ?_, ?_⟩
    · rw [snapPosition, if_neg hcond]; rfl
    · rw [snapSize, if_neg hcond]; rfl
    · intro h20
      rw [snapSize, if_neg hcond]
      dsimp only
      rw [h20]
      exact ⟨le_max_left _ _, le_max_left _ _⟩
  · intro h1 h2
    rw [snapPosition, if_neg (by simp [h1, h2])]
    dsimp only
    rw [h2]
    show Position.mk ((jsRound ((105 : ℚ) / 20) : ℚ) * 20) ((jsRound ((213 : ℚ) / 20) : ℚ) * 20) = _
    norm_num [jsRound, show ((105 : ℚ) / 20 + 1 / 2) = 23 / 4 from by norm_num,
      show ((213 : ℚ) / 20 + 1 / 2) = 223 / 20 from by norm_num,
      show ⌊(23 / 4 : ℚ)⌋ = 5 from by rw [Int.floor_eq_iff] <;> norm_num,
      show ⌊(223 / 20 : ℚ)⌋ = 11 from by rw [Int.floor_eq_iff] <;> norm_num]

theorem claim_C5_witness :
    snapPosition S0 { x := 105, y := 213 } = { x := 100, y := 220 } ∧
    20 ≤ (snapSize S0 { width := 5, height := 5 }).width := by
  have h := claim_C5 S0 { x := 105, y := 213 } { width := 5, height := 5 }
  exact ⟨h.2.2 rfl rfl, ((h.2.1 rfl (by decide)).2.2 rfl).1⟩

/-- C9: for a live id, `updateProperties` returns true, shallowly merges
the patch into the existing properties (position, size and zIndex of the
placement unchanged), leaves every other placement, the history ledger,
the cursor, the selection, the configuration and the zIndex counter
unchanged, and emits exactly one generic state-changed notification. -/
theorem claim_C9 (s : CanvasState) (id : Nat) (properties : Props)
    (w : WidgetPlacement) (hw : getWidget s id = some w) :
    (updateWidgetProperties s id properties).1 = true ∧
    getWidget (updateWidgetProperties s id properties).2.1 id =
      some { w with properties := mergeProps w.properties properties } ∧
    (∀ j, j ≠ id →
      getWidget (updateWidgetProperties s id properties).2.1 j = getWidget s j) ∧
    (updateWidgetProperties s id properties).2.1.history = s.history ∧
    (updateWidgetProperties s id properties).2.1.historyIndex = s.historyIndex ∧
    (updateWidgetProperties s id properties).2.1.selectedId = s.selectedId ∧
    (updateWidgetProperties s id properties).2.1.config = s.config ∧
    (updateWidgetProperties s id properties).2.1.nextZIndex = s.nextZIndex ∧
    (updateWidgetProperties s id properties).2.2 = [CanvasEvent.canvasChange] := by
  rw [getWidget] at hw
  rw [updateWidgetProperties_some properties hw]
  refine ⟨rfl, ?_, ?_, rfl, rfl, rfl, rfl, rfl, rfl⟩
  · rw [getWidget]
    dsimp only
    rw [mapGet_mapUpdate_self
      (f := fun v => { v with properties := mergeProps v.properties properties })
      (fun _ => rfl), hw]
    rfl
  · intro j hj
    rw [getWidget, getWidget]
    dsimp only
    rw [mapGet_mapUpdate_ne
      (f := fun v => { v with properties := mergeProps v.properties properties })
      (fun _ => rfl) hj]

theorem claim_C9_witness :
    (updateWidgetProperties S1 0 [("label", "x")]).1 = true ∧
    getWidget (updateWidgetProperties S1 0 [("label", "x")]).2.1 0 =
      some { W0 with properties := mergeProps W0.properties [("label", "x")] } ∧
    (updateWidgetProperties S1 0 [("label", "x")]).2.1.history = S1.history := by
  have h := claim_C9 S1 0 [("label", "x")] W0 (by rfl)
  exact ⟨h.1, h.2.1, h.2.2.2.1⟩

/-- C10: every snapshot restore — direct `restoreSnapshot`, a successful
`undo` or `redo`, and `fromJSON` — unconditionally clears the selection to
null (even when the previously selected placement still exists in the
restored state) and emits exactly the single bulk state-changed
notification, never a deselect notification. -/
theorem claim_C10 (s : CanvasState) (snap : CanvasSnapshot) :
    ((restoreSnapshot s snap).1.selectedId = none ∧
     (restoreSnapshot s snap).2 = [CanvasEvent.canvasChange]) ∧
    (canUndo s = true →
      (undo s).2.1.selectedId = none ∧ (undo s).2.2 = [CanvasEvent.canvasChange]) ∧
    (canRedo s = true →
      (redo s).2.1.selectedId = none ∧ (redo s).2.2 = [CanvasEvent.canvasChange]) ∧
    ((fromJSON s snap).1.selectedId = none ∧
     (fromJSON s snap).2 = [CanvasEvent.canvasChange]) := by
  refine ⟨⟨?_, restoreSnapshot_snd s snap⟩, ?_, ?_, ?_, ?_⟩
  · rw [restoreSnapshot_fst]
  · intro hc
    rw [undo_succ hc]
    exact ⟨by rw [restoreSnapshot_fst], rfl⟩
  · intro hc
    rw [redo_succ hc]
    exact ⟨by rw [restoreSnapshot_fst], rfl⟩
  · unfold fromJSON
    dsimp only
    rw [saveHistory_selectedId, restoreSnapshot_fst]
  · unfold fromJSON
    dsimp only
    rw [restoreSnapshot_snd]

theorem claim_C10_witness :
    (undo S1).2.1.selectedId = none ∧
    (undo S1).2.2 = [CanvasEvent.canvasChange] ∧
    (fromJSON S1 emptySnapshot).1.selectedId = none := by
  have h := claim_C10 S1 emptySnapshot
  exact ⟨(h.2.1 (by rfl)).1, (h.2.1 (by rfl)).2, h.2.2.2.1⟩

/-- C6 counterexample: `selectWidget` with an id that references no live
placement sets the selection to that id anyway (the engine only guards the
zIndex bump, not the assignment), so a reachable state exists whose
selection is set while its widget collection is empty — the claimed
invariant `selection set → selection references a live placement` fails,
and an operation (`selectWidget` with an unknown id) can leave the
selection pointing at a non-live id. -/
theorem claim_C6_counterexample :
    ∃ s : CanvasState, Reachable s ∧ s.selectedId = some 5 ∧ s.widgets = [] :=
  ⟨(selectWidget (CanvasState.mk0 {} 0 0) (some 5)).1,
   Reachable.selectWidget (CanvasState.mk0 {} 0 0) (some 5) (Reachable.init {} 0 0),
   rfl, rfl⟩

/-- C6 amended: when `selectWidget` is only ever called with null or a
live id (the discipline the container layer follows), the invariant
holds: a set selection always references a live placement, and
`removeWidget` on the currently selected id returns true, clears the
selection to null and emits the deselect notification before the removal
notification. -/
theorem claim_C6 (s : CanvasState) (id : Nat) (h : ReachableSel s) :
    (s.selectedId = some id → ∃ w, getWidget s id = some w) ∧
    (s.selectedId = some id →
      (removeWidget s id).1 = true ∧
      (removeWidget s id).2.1.selectedId = none ∧
      ∃ w, (removeWidget s id).2.2 =
        [CanvasEvent.widgetDeselect id, CanvasEvent.widgetRemove w]) := by
  have hsel := reachableSel_selInv h
  refine ⟨fun hi => hsel id hi, fun hi => ?_⟩
  obtain ⟨w, hw⟩ := hsel id hi
  rw [removeWidget_some hw]
  dsimp only
  rw [if_pos hi, if_pos hi]
  refine ⟨rfl, ?_, w, rfl⟩
  rw [saveHistory_selectedId]

theorem claim_C6_witness :
    (∃ w, getWidget SSel 0 = some w) ∧
    (removeWidget SSel 0).1 = true ∧
    (removeWidget SSel 0).2.1.selectedId = none := by
  have hr : ReachableSel SSel := by
    refine ReachableSel.selectWidget S1 (some 0) ?_ ?_
    · exact ReachableSel.addWidget S0 "w" none none none (ReachableSel.init {} 0 0)
    · intro i hi
      cases hi
      exact ⟨_, rfl⟩
  have h := claim_C6 SSel 0 hr
  have hi : SSel.selectedId = some 0 := rfl
  exact ⟨h.1 hi, (h.2 hi).1, (h.2 hi).2.1⟩

/-- C8 counterexample: the engine itself never enforces the 80 by 60
minimum — `addWidget` stores an explicit size unclamped, so a reachable
state holds a live placement of width 5 (below 80). -/
theorem claim_C8_counterexample :
    ∃ s : CanvasState, Reachable s ∧ ∃ w ∈ s.widgets, w.size.width < 80 := by
  have hw : (addWidget S0 "w" none (some { width := 5, height := 7 }) none).2.1.widgets
      = [(addWidget S0 "w" none (some { width := 5, height := 7 }) none).1] := by
    rw [addWidget_def]
    dsimp only
    rw [saveHistory_widgets]
    rfl
  refine ⟨(addWidget S0 "w" none (some { width := 5, height := 7 }) none).2.1,
    Reachable.addWidget S0 "w" none (some { width := 5, height := 7 }) none
      (Reachable.init {} 0 0),
    (addWidget S0 "w" none (some { width := 5, height := 7 }) none).1,
    by rw [hw]; exact List.mem_singleton_self _, ?_⟩
  show ((5 : ℚ)) < 80
  norm_num

/-- C8 amended: the 80 by 60 minimum is enforced only by the container
resize-drag handler (`WidgetContainer.startResize` clamps the candidate
size before invoking the resize callback); at the engine, `resizeWidget`
with snapping enabled floors each dimension at the grid size only, and
`addWidget` without an explicit size uses the 200 by 150 default. -/
theorem claim_C8 (s : CanvasState) (sz start : Size) (corner : String) (dx dy : ℚ)
    (tag : String) (position : Option Position) (properties : Option Props) :
    (80 ≤ (containerResize start corner dx dy).width ∧
     60 ≤ (containerResize start corner dx dy).height) ∧
    (s.config.snapToGrid = true → s.config.gridSize ≠ 0 →
      s.config.gridSize ≤ (snapSize s sz).width ∧
      s.config.gridSize ≤ (snapSize s sz).height) ∧
    (addWidget s tag position none properties).1.size = DEFAULT_WIDGET_SIZE := by
  refine ⟨⟨le_max_left _ _, le_max_left _ _⟩, ?_, rfl⟩
  intro h1 h2
  rw [snapSize, if_neg (by simp [h1, h2])]
  exact ⟨le_max_left _ _, le_max_left _ _⟩

theorem claim_C8_witness :
    (80 ≤ (containerResize { width := 100, height := 100 } "se" 3 4).width ∧
     60 ≤ (containerResize { width := 100, height := 100 } "se" 3 4).height) ∧
    (S0.config.gridSize ≤ (snapSize S0 { width := 5, height := 5 }).width ∧
     S0.config.gridSize ≤ (snapSize S0 { width := 5, height := 5 }).height) ∧
    (addWidget S0 "w" none none none).1.size = DEFAULT_WIDGET_SIZE := by
  have h := claim_C8 S0 { width := 5, height := 5 } { width := 100, height := 100 }
    "se" 3 4 "w" none none
  exact ⟨h.1, h.2.1 rfl (by decide), h.2.2⟩

end WidgetPlayground
